import Mathlib

/-
  Shallow embedding of the hujw77/HFT-Orderbook Rust core
  (src/rust/src/{types,order,limit,orderbook,matching_engine}.rs)
  and proofs about its public operations.

  Modelling conventions:
  * u64 / u128 / usize are modelled as Nat.  None of the properties
    below probe integer wrap-around; where Rust subtraction could
    underflow, theorems carry hypotheses ruling the case out.
  * Vec<Option<T>> arenas are Lists of Option; HashMap is an
    association list with replace-on-insert semantics.
  * Fallible code returns Except; a Rust panic (unwrap on None or an
    out-of-range index write that is later observed) is modelled by
    the dedicated error value `panicked`.
  * The bounded tree recursions receive explicit fuel; running out of
    fuel (possible only on a corrupted, cyclic index graph, where the
    Rust code would not terminate) is also surfaced as `panicked`.
-/

namespace HFT

/-- types.rs: order side. -/
inductive Side where
  | buy
  | sell
deriving DecidableEq

/-- types.rs: order status. -/
inductive OrderStatus where
  | active
  | partiallyFilled
  | filled
  | cancelled
deriving DecidableEq

/-- avl_tree.rs: per-node tree metadata. -/
structure AvlNode where
  parent : Option Nat
  left_child : Option Nat
  right_child : Option Nat
  height : Int
deriving DecidableEq

/-- avl_tree.rs: AvlNode::new. -/
def AvlNode.newNode : AvlNode :=
  { parent := none, left_child := none, right_child := none, height := 1 }

/-- order.rs: the order record. -/
structure Order where
  id : Nat
  side : Side
  quantity : Nat
  remaining_quantity : Nat
  price : Nat
  entry_time : Nat
  event_time : Nat
  exchange_id : Nat
  status : OrderStatus
  next_order_index : Option Nat
  prev_order_index : Option Nat
  parent_limit_index : Option Nat
deriving DecidableEq

/-- order.rs: Order::new. -/
def Order.newOrder (id : Nat) (side : Side) (quantity price entry_time exchange_id : Nat) :
    Order :=
  { id := id, side := side, quantity := quantity, remaining_quantity := quantity,
    price := price, entry_time := entry_time, event_time := entry_time,
    exchange_id := exchange_id, status := OrderStatus.active,
    next_order_index := none, prev_order_index := none, parent_limit_index := none }

/-- order.rs: Order::filled_quantity (quantity - remaining_quantity). -/
def Order.filled_quantity (o : Order) : Nat :=
  o.quantity - o.remaining_quantity

/-- order.rs: Order::fill.  Returns the updated order; the Rust return
value (the amount actually filled) is `min quantity remaining`. -/
def Order.fill (o : Order) (quantity event_time : Nat) : Order :=
  let fill_quantity := min quantity o.remaining_quantity
  let rq := o.remaining_quantity - fill_quantity
  { o with
    remaining_quantity := rq, event_time := event_time,
    status := if rq = 0 then OrderStatus.filled
              else if rq < o.quantity then OrderStatus.partiallyFilled
              else o.status }

/-- order.rs: Order::cancel. -/
def Order.cancelOrder (o : Order) (event_time : Nat) : Order :=
  { o with status := OrderStatus.cancelled, event_time := event_time }

/-- order.rs: Order::update_quantity.  Returns the Rust bool together
with the (possibly) updated order. -/
def Order.update_quantity (o : Order) (new_quantity event_time : Nat) : Bool × Order :=
  let filled := o.filled_quantity
  if new_quantity < filled then (false, o)
  else
    let rq := new_quantity - filled
    (true,
      { o with
        quantity := new_quantity, remaining_quantity := rq,
        event_time := event_time,
        status := if rq = 0 then OrderStatus.filled
                  else if new_quantity - rq > 0 then OrderStatus.partiallyFilled
                  else OrderStatus.active })

/-- limit.rs: the price-level record. -/
structure Limit where
  price : Nat
  size : Nat
  total_volume : Nat
  order_count : Nat
  side : Side
  avl_node : AvlNode
  head_order_index : Option Nat
  tail_order_index : Option Nat
deriving DecidableEq

/-- limit.rs: Limit::new. -/
def Limit.newLimit (price : Nat) (side : Side) : Limit :=
  { price := price, size := 0, total_volume := 0, order_count := 0,
    side := side, avl_node := AvlNode.newNode,
    head_order_index := none, tail_order_index := none }

/-- limit.rs: Limit::is_empty. -/
def Limit.is_empty (l : Limit) : Bool :=
  l.order_count = 0

/-- limit.rs: Limit::add_order_stats. -/
def Limit.add_order_stats (l : Limit) (quantity : Nat) : Limit :=
  { l with
    size := l.size + quantity,
    total_volume := l.total_volume + l.price * quantity,
    order_count := l.order_count + 1 }

/-- limit.rs: Limit::remove_order_stats (the debug assertions guard
against underflow; Nat subtraction truncates there instead). -/
def Limit.remove_order_stats (l : Limit) (quantity : Nat) : Limit :=
  { l with
    size := l.size - quantity,
    total_volume := l.total_volume - l.price * quantity,
    order_count := l.order_count - 1 }

/-- limit.rs: Limit::update_order_stats. -/
def Limit.update_order_stats (l : Limit) (old_quantity new_quantity : Nat) : Limit :=
  if new_quantity > old_quantity then
    { l with
      size := l.size + (new_quantity - old_quantity),
      total_volume := l.total_volume + l.price * (new_quantity - old_quantity) }
  else if old_quantity > new_quantity then
    { l with
      size := l.size - (old_quantity - new_quantity),
      total_volume := l.total_volume - l.price * (old_quantity - new_quantity) }
  else l

/-- types.rs: the trade record. -/
structure Trade where
  aggressor_order_id : Nat
  passive_order_id : Nat
  price : Nat
  quantity : Nat
  timestamp : Nat
  aggressor_side : Side
deriving DecidableEq

/-- lib.rs: OrderBookError, extended with `panicked` which models a
Rust panic (unwrap on None / index out of bounds), and `treeError`
whose message string is dropped. -/
inductive OrderBookError where
  | orderAlreadyExists (id : Nat)
  | orderNotFound (id : Nat)
  | invalidPrice (price : Nat)
  | invalidQuantity (quantity : Nat)
  | limitNotFound (price : Nat)
  | treeError
  | panicked
deriving DecidableEq

/-! ### Arena and map primitives -/

/-- Write index `i` of a list; out-of-range writes are dropped (the
corresponding Rust `vec[i] = v` would panic, which every caller below
surfaces when it next reads the slot). -/
def setAt {α : Type} : List α → Nat → α → List α
  | [], _, _ => []
  | _ :: xs, 0, a => a :: xs
  | x :: xs, n + 1, a => x :: setAt xs n a

/-- Read an arena slot: `none` for a free slot or an out-of-range
index. -/
def slotGet {α : Type} (l : List (Option α)) (i : Nat) : Option α :=
  match l.get? i with
  | some (some a) => some a
  | _ => none

/-- HashMap::get on an association list. -/
def lookupA : List (Nat × Nat) → Nat → Option Nat
  | [], _ => none
  | (k', v) :: rest, k => if k' = k then some v else lookupA rest k

/-- HashMap::insert (replace on duplicate key). -/
def insertA : List (Nat × Nat) → Nat → Nat → List (Nat × Nat)
  | [], k, v => [(k, v)]
  | (k', v') :: rest, k, v =>
    if k' = k then (k, v) :: rest else (k', v') :: insertA rest k v

/-- HashMap::remove (keys are unique by construction). -/
def removeA : List (Nat × Nat) → Nat → List (Nat × Nat)
  | [], _ => []
  | (k', v') :: rest, k => if k' = k then rest else (k', v') :: removeA rest k

/-! ### The order book state (orderbook.rs) -/

/-- orderbook.rs: the OrderBook struct. -/
structure OrderBook where
  orders : List (Option Order)
  free_order_indices : List Nat
  order_id_to_index : List (Nat × Nat)
  limits : List (Option Limit)
  free_limit_indices : List Nat
  price_to_limit_index : List (Nat × Nat)
  buy_tree_root : Option Nat
  sell_tree_root : Option Nat
  best_bid_index : Option Nat
  best_ask_index : Option Nat
  current_time : Nat
deriving DecidableEq

namespace OrderBook

/-- orderbook.rs: OrderBook::new. -/
def newBook : OrderBook :=
  { orders := [], free_order_indices := [], order_id_to_index := [],
    limits := [], free_limit_indices := [], price_to_limit_index := [],
    buy_tree_root := none, sell_tree_root := none,
    best_bid_index := none, best_ask_index := none, current_time := 0 }

/-- orderbook.rs: OrderBook::set_time. -/
def set_time (b : OrderBook) (timestamp : Nat) : OrderBook :=
  { b with current_time := timestamp }

/-- orderbook.rs: OrderBook::best_bid. -/
def best_bid (b : OrderBook) : Option (Nat × Nat) :=
  (b.best_bid_index.bind (fun idx => slotGet b.limits idx)).map
    (fun limit => (limit.price, limit.size))

/-- orderbook.rs: OrderBook::best_ask. -/
def best_ask (b : OrderBook) : Option (Nat × Nat) :=
  (b.best_ask_index.bind (fun idx => slotGet b.limits idx)).map
    (fun limit => (limit.price, limit.size))

/-- orderbook.rs: OrderBook::spread. -/
def spread (b : OrderBook) : Option Nat :=
  match b.best_ask, b.best_bid with
  | some (ask_price, _), some (bid_price, _) =>
    if ask_price > bid_price then some (ask_price - bid_price) else some 0
  | _, _ => none

/-- orderbook.rs: OrderBook::mid_price. -/
def mid_price (b : OrderBook) : Option Nat :=
  match b.best_ask, b.best_bid with
  | some (ask_price, _), some (bid_price, _) => some ((ask_price + bid_price) / 2)
  | _, _ => none

/-- orderbook.rs: OrderBook::volume_at_price. -/
def volume_at_price (b : OrderBook) (price : Nat) : Option Nat :=
  ((lookupA b.price_to_limit_index price).bind (fun idx => slotGet b.limits idx)).map
    (fun limit => limit.size)

/-- orderbook.rs: OrderBook::orders_at_price. -/
def orders_at_price (b : OrderBook) (price : Nat) : Option Nat :=
  ((lookupA b.price_to_limit_index price).bind (fun idx => slotGet b.limits idx)).map
    (fun limit => limit.order_count)

/-- orderbook.rs: OrderBook::contains_order. -/
def contains_order (b : OrderBook) (order_id : Nat) : Bool :=
  (lookupA b.order_id_to_index order_id).isSome

/-- orderbook.rs: OrderBook::get_order. -/
def get_order (b : OrderBook) (order_id : Nat) : Option Order :=
  (lookupA b.order_id_to_index order_id).bind (fun idx => slotGet b.orders idx)

/-- orderbook.rs: OrderBook::total_orders. -/
def total_orders (b : OrderBook) : Nat :=
  b.order_id_to_index.length

/-- orderbook.rs: OrderBook::total_levels. -/
def total_levels (b : OrderBook) : Nat :=
  b.price_to_limit_index.length

/-- orderbook.rs: OrderBook::allocate_order_index. -/
def allocate_order_index (b : OrderBook) : Nat × OrderBook :=
  match b.free_order_indices with
  | index :: rest => (index, { b with free_order_indices := rest })
  | [] => (b.orders.length, { b with orders := b.orders ++ [none] })

/-- orderbook.rs: OrderBook::free_order_index. -/
def free_order_index (b : OrderBook) (index : Nat) : OrderBook :=
  { b with
    orders := setAt b.orders index none,
    free_order_indices := index :: b.free_order_indices }

/-- orderbook.rs: OrderBook::allocate_limit_index. -/
def allocate_limit_index (b : OrderBook) : Nat × OrderBook :=
  match b.free_limit_indices with
  | index :: rest => (index, { b with free_limit_indices := rest })
  | [] => (b.limits.length, { b with limits := b.limits ++ [none] })

/-- orderbook.rs: OrderBook::free_limit_index. -/
def free_limit_index (b : OrderBook) (index : Nat) : OrderBook :=
  { b with
    limits := setAt b.limits index none,
    free_limit_indices := index :: b.free_limit_indices }

/-- `self.orders[i].as_mut().unwrap()` followed by a field write:
`none` is the Rust panic. -/
def modifyOrderAt (b : OrderBook) (i : Nat) (f : Order → Order) : Option OrderBook :=
  match slotGet b.orders i with
  | some o => some { b with orders := setAt b.orders i (some (f o)) }
  | none => none

/-- `self.limits[i].as_mut().unwrap()` followed by a field write:
`none` is the Rust panic. -/
def modifyLimitAt (b : OrderBook) (i : Nat) (f : Limit → Limit) : Option OrderBook :=
  match slotGet b.limits i with
  | some l => some { b with limits := setAt b.limits i (some (f l)) }
  | none => none

/-- orderbook.rs: OrderBook::insert_into_tree (plain BST insert, no
balancing).  Fuel bounds the recursion depth; `none` models a panic
(unwrap of a free slot) or non-termination on a cyclic index graph. -/
def insert_into_tree (b : OrderBook) (root : Option Nat) (limit_idx : Nat) :
    Nat → Option (Nat × OrderBook)
  | 0 => none
  | fuel + 1 =>
    match root with
    | none => some (limit_idx, b)
    | some root_idx =>
      match slotGet b.limits limit_idx, slotGet b.limits root_idx with
      | some ll, some rl =>
        if ll.price < rl.price then
          match insert_into_tree b rl.avl_node.left_child limit_idx fuel with
          | none => none
          | some (new_left, b1) =>
            match modifyLimitAt b1 root_idx
                (fun l => { l with avl_node := { l.avl_node with left_child := some new_left } }) with
            | none => none
            | some b2 =>
              match modifyLimitAt b2 new_left
                  (fun l => { l with avl_node := { l.avl_node with parent := some root_idx } }) with
              | none => none
              | some b3 => some (root_idx, b3)
        else if ll.price > rl.price then
          match insert_into_tree b rl.avl_node.right_child limit_idx fuel with
          | none => none
          | some (new_right, b1) =>
            match modifyLimitAt b1 root_idx
                (fun l => { l with avl_node := { l.avl_node with right_child := some new_right } }) with
            | none => none
            | some b2 =>
              match modifyLimitAt b2 new_right
                  (fun l => { l with avl_node := { l.avl_node with parent := some root_idx } }) with
              | none => none
              | some b3 => some (root_idx, b3)
        else some (root_idx, b)
      | _, _ => none

/-- orderbook.rs: OrderBook::find_min_in_subtree (loop on left
children; fuel-bounded, `none` models panic or non-termination). -/
def find_min_in_subtree (b : OrderBook) (index : Nat) : Nat → Option Nat
  | 0 => none
  | fuel + 1 =>
    match slotGet b.limits index with
    | none => none
    | some l =>
      match l.avl_node.left_child with
      | none => some index
      | some left => find_min_in_subtree b left fuel

/-- orderbook.rs: OrderBook::remove_from_tree (simplified BST removal;
in the two-children case the code copies only the successor price into
the root slot and removes the successor node). -/
def remove_from_tree (b : OrderBook) (root : Option Nat) (limit_idx : Nat) :
    Nat → Option (Option Nat × OrderBook)
  | 0 => none
  | fuel + 1 =>
    match root with
    | none => some (none, b)
    | some root_idx =>
      if root_idx = limit_idx then
        match slotGet b.limits root_idx with
        | none => none
        | some rl =>
          match rl.avl_node.left_child, rl.avl_node.right_child with
          | none, none => some (none, b)
          | some left, none =>
            (modifyLimitAt b left
              (fun l => { l with avl_node := { l.avl_node with parent := rl.avl_node.parent } })).map
              (fun b1 => (some left, b1))
          | none, some right =>
            (modifyLimitAt b right
              (fun l => { l with avl_node := { l.avl_node with parent := rl.avl_node.parent } })).map
              (fun b1 => (some right, b1))
          | some _, some right =>
            match find_min_in_subtree b right fuel with
            | none => none
            | some successor_idx =>
              match slotGet b.limits successor_idx with
              | none => none
              | some sl =>
                match modifyLimitAt b root_idx (fun l => { l with price := sl.price }) with
                | none => none
                | some b1 =>
                  match remove_from_tree b1 (some right) successor_idx fuel with
                  | none => none
                  | some (new_right, b2) =>
                    (modifyLimitAt b2 root_idx
                      (fun l => { l with avl_node := { l.avl_node with right_child := new_right } })).map
                      (fun b3 => (some root_idx, b3))
      else
        match slotGet b.limits limit_idx, slotGet b.limits root_idx with
        | some ll, some rl =>
          if ll.price < rl.price then
            match remove_from_tree b rl.avl_node.left_child limit_idx fuel with
            | none => none
            | some (new_left, b1) =>
              (modifyLimitAt b1 root_idx
                (fun l => { l with avl_node := { l.avl_node with left_child := new_left } })).map
                (fun b2 => (some root_idx, b2))
          else
            match remove_from_tree b rl.avl_node.right_child limit_idx fuel with
            | none => none
            | some (new_right, b1) =>
              (modifyLimitAt b1 root_idx
                (fun l => { l with avl_node := { l.avl_node with right_child := new_right } })).map
                (fun b2 => (some root_idx, b2))
        | _, _ => none

/-- orderbook.rs: OrderBook::find_max_with_orders_recursive.  `none`
is "no node with orders" (a free slot stops the search, as in the
Rust `if let`); fuel exhaustion also yields `none`. -/
def find_max_with_orders_recursive (b : OrderBook) : Option Nat → Nat → Option Nat
  | _, 0 => none
  | none, _ + 1 => none
  | some idx, fuel + 1 =>
    match slotGet b.limits idx with
    | none => none
    | some limit =>
      if limit.is_empty = false then
        match find_max_with_orders_recursive b limit.avl_node.right_child fuel with
        | some right_result => some right_result
        | none => some idx
      else
        match find_max_with_orders_recursive b limit.avl_node.right_child fuel with
        | some right_result => some right_result
        | none => find_max_with_orders_recursive b limit.avl_node.left_child fuel

/-- orderbook.rs: OrderBook::find_min_with_orders_recursive. -/
def find_min_with_orders_recursive (b : OrderBook) : Option Nat → Nat → Option Nat
  | _, 0 => none
  | none, _ + 1 => none
  | some idx, fuel + 1 =>
    match slotGet b.limits idx with
    | none => none
    | some limit =>
      if limit.is_empty = false then
        match find_min_with_orders_recursive b limit.avl_node.left_child fuel with
        | some left_result => some left_result
        | none => some idx
      else
        match find_min_with_orders_recursive b limit.avl_node.left_child fuel with
        | some left_result => some left_result
        | none => find_min_with_orders_recursive b limit.avl_node.right_child fuel

/-- orderbook.rs: OrderBook::find_new_best_bid. -/
def find_new_best_bid (b : OrderBook) : Option Nat :=
  find_max_with_orders_recursive b b.buy_tree_root (b.limits.length + 1)

/-- orderbook.rs: OrderBook::find_new_best_ask. -/
def find_new_best_ask (b : OrderBook) : Option Nat :=
  find_min_with_orders_recursive b b.sell_tree_root (b.limits.length + 1)

/-- orderbook.rs: OrderBook::update_best_prices.  `none` is the Rust
panic (unwrap of a free best slot). -/
def update_best_prices (b : OrderBook) (limit_idx : Nat) (side : Side) :
    Option OrderBook :=
  match slotGet b.limits limit_idx with
  | none => none
  | some limit =>
    match side with
    | Side.buy =>
      match b.best_bid_index with
      | none => some { b with best_bid_index := some limit_idx }
      | some bi =>
        match slotGet b.limits bi with
        | none => none
        | some bl =>
          some (if limit.price > bl.price then { b with best_bid_index := some limit_idx } else b)
    | Side.sell =>
      match b.best_ask_index with
      | none => some { b with best_ask_index := some limit_idx }
      | some ai =>
        match slotGet b.limits ai with
        | none => none
        | some al =>
          some (if limit.price < al.price then { b with best_ask_index := some limit_idx } else b)

/-- orderbook.rs: OrderBook::get_or_create_limit. -/
def get_or_create_limit (b : OrderBook) (price : Nat) (side : Side) :
    Except OrderBookError Nat × OrderBook :=
  match lookupA b.price_to_limit_index price with
  | some limit_idx => (Except.ok limit_idx, b)
  | none =>
    let alloc := allocate_limit_index b
    let limit_idx := alloc.1
    let b1 := alloc.2
    let b2 := { b1 with limits := setAt b1.limits limit_idx (some (Limit.newLimit price side)) }
    let b3 := { b2 with price_to_limit_index := insertA b2.price_to_limit_index price limit_idx }
    match side with
    | Side.buy =>
      match insert_into_tree b3 b3.buy_tree_root limit_idx (b3.limits.length + 1) with
      | none => (Except.error OrderBookError.panicked, b3)
      | some (new_root, b4) => (Except.ok limit_idx, { b4 with buy_tree_root := some new_root })
    | Side.sell =>
      match insert_into_tree b3 b3.sell_tree_root limit_idx (b3.limits.length + 1) with
      | none => (Except.error OrderBookError.panicked, b3)
      | some (new_root, b4) => (Except.ok limit_idx, { b4 with sell_tree_root := some new_root })

/-- orderbook.rs: OrderBook::add_order_to_limit. -/
def add_order_to_limit (b : OrderBook) (order_idx limit_idx quantity : Nat) :
    Except OrderBookError Unit × OrderBook :=
  match slotGet b.limits limit_idx with
  | none => (Except.error OrderBookError.panicked, b)
  | some limit0 =>
    let tail_idx := limit0.tail_order_index
    match modifyOrderAt b order_idx (fun o => { o with parent_limit_index := some limit_idx }) with
    | none => (Except.error OrderBookError.panicked, b)
    | some b1 =>
      match tail_idx with
      | some t =>
        match modifyOrderAt b1 t (fun o => { o with next_order_index := some order_idx }) with
        | none => (Except.error OrderBookError.panicked, b1)
        | some b2 =>
          match modifyOrderAt b2 order_idx (fun o => { o with prev_order_index := some t }) with
          | none => (Except.error OrderBookError.panicked, b2)
          | some b3 =>
            match modifyLimitAt b3 limit_idx (fun l => { l with tail_order_index := some order_idx }) with
            | none => (Except.error OrderBookError.panicked, b3)
            | some b4 =>
              match modifyLimitAt b4 limit_idx (fun l => l.add_order_stats quantity) with
              | none => (Except.error OrderBookError.panicked, b4)
              | some b5 => (Except.ok (), b5)
      | none =>
        match modifyLimitAt b1 limit_idx
            (fun l => { l with head_order_index := some order_idx, tail_order_index := some order_idx }) with
        | none => (Except.error OrderBookError.panicked, b1)
        | some b2 =>
          match modifyLimitAt b2 limit_idx (fun l => l.add_order_stats quantity) with
          | none => (Except.error OrderBookError.panicked, b2)
          | some b3 => (Except.ok (), b3)

/-- orderbook.rs: OrderBook::add_order_to_book. -/
def add_order_to_book (b : OrderBook) (order : Order) :
    Except OrderBookError Unit × OrderBook :=
  let alloc := allocate_order_index b
  let order_idx := alloc.1
  let b1 := alloc.2
  let quantity := order.remaining_quantity
  let b2 := { b1 with
    orders := setAt b1.orders order_idx (some order),
    order_id_to_index := insertA b1.order_id_to_index order.id order_idx }
  match get_or_create_limit b2 order.price order.side with
  | (Except.error e, b3) => (Except.error e, b3)
  | (Except.ok limit_idx, b3) =>
    match add_order_to_limit b3 order_idx limit_idx quantity with
    | (Except.error e, b4) => (Except.error e, b4)
    | (Except.ok _, b4) =>
      match update_best_prices b4 limit_idx order.side with
      | none => (Except.error OrderBookError.panicked, b4)
      | some b5 => (Except.ok (), b5)

/-- orderbook.rs: OrderBook::add_order (public). -/
def add_order (b : OrderBook) (order : Order) : Except OrderBookError Unit × OrderBook :=
  if order.price = 0 then (Except.error (OrderBookError.invalidPrice order.price), b)
  else if order.quantity = 0 then (Except.error (OrderBookError.invalidQuantity order.quantity), b)
  else if b.contains_order order.id then (Except.error (OrderBookError.orderAlreadyExists order.id), b)
  else add_order_to_book b { order with event_time := b.current_time }

/-- orderbook.rs: OrderBook::remove_empty_limit. -/
def remove_empty_limit (b : OrderBook) (limit_idx : Nat) :
    Except OrderBookError Unit × OrderBook :=
  match slotGet b.limits limit_idx with
  | none => (Except.error OrderBookError.panicked, b)
  | some limit =>
    let price := limit.price
    let b1 := { b with price_to_limit_index := removeA b.price_to_limit_index price }
    let treeStep : Option OrderBook :=
      match limit.side with
      | Side.buy =>
        (remove_from_tree b1 b1.buy_tree_root limit_idx (b1.limits.length + 1)).map
          (fun r => { r.2 with buy_tree_root := r.1 })
      | Side.sell =>
        (remove_from_tree b1 b1.sell_tree_root limit_idx (b1.limits.length + 1)).map
          (fun r => { r.2 with sell_tree_root := r.1 })
    match treeStep with
    | none => (Except.error OrderBookError.panicked, b1)
    | some b2 =>
      let b3 := if b2.best_bid_index = some limit_idx
                then { b2 with best_bid_index := find_new_best_bid b2 } else b2
      let b4 := if b3.best_ask_index = some limit_idx
                then { b3 with best_ask_index := find_new_best_ask b3 } else b3
      (Except.ok (), free_limit_index b4 limit_idx)

/-- orderbook.rs: OrderBook::remove_order_from_limit. -/
def remove_order_from_limit (b : OrderBook) (order_idx limit_idx : Nat) :
    Except OrderBookError Unit × OrderBook :=
  match slotGet b.orders order_idx with
  | none => (Except.error OrderBookError.panicked, b)
  | some o =>
    let prev_idx := o.prev_order_index
    let next_idx := o.next_order_index
    let order_id := o.id
    let quantity := o.remaining_quantity
    let step1 : Option OrderBook :=
      match prev_idx with
      | some prev => modifyOrderAt b prev (fun x => { x with next_order_index := next_idx })
      | none => modifyLimitAt b limit_idx (fun l => { l with head_order_index := next_idx })
    match step1 with
    | none => (Except.error OrderBookError.panicked, b)
    | some b1 =>
      let step2 : Option OrderBook :=
        match next_idx with
        | some next => modifyOrderAt b1 next (fun x => { x with prev_order_index := prev_idx })
        | none => modifyLimitAt b1 limit_idx (fun l => { l with tail_order_index := prev_idx })
      match step2 with
      | none => (Except.error OrderBookError.panicked, b1)
      | some b2 =>
        match modifyLimitAt b2 limit_idx (fun l => l.remove_order_stats quantity) with
        | none => (Except.error OrderBookError.panicked, b2)
        | some b3 =>
          let b4 := { b3 with order_id_to_index := removeA b3.order_id_to_index order_id }
          let b5 := free_order_index b4 order_idx
          match slotGet b5.limits limit_idx with
          | none => (Except.error OrderBookError.panicked, b5)
          | some l =>
            if l.is_empty then remove_empty_limit b5 limit_idx
            else (Except.ok (), b5)

/-- orderbook.rs: OrderBook::remove_order (public). -/
def remove_order (b : OrderBook) (order_id : Nat) :
    Except OrderBookError Order × OrderBook :=
  match lookupA b.order_id_to_index order_id with
  | none => (Except.error (OrderBookError.orderNotFound order_id), b)
  | some order_idx =>
    match slotGet b.orders order_idx with
    | none => (Except.error OrderBookError.panicked, b)
    | some o =>
      match o.parent_limit_index with
      | none => (Except.error OrderBookError.panicked, b)
      | some limit_idx =>
        let cancelled_order := o.cancelOrder b.current_time
        let b1 := { b with orders := setAt b.orders order_idx (some cancelled_order) }
        match remove_order_from_limit b1 order_idx limit_idx with
        | (Except.error e, b2) => (Except.error e, b2)
        | (Except.ok _, b2) => (Except.ok cancelled_order, b2)

/-- orderbook.rs: OrderBook::update_order (public). -/
def update_order (b : OrderBook) (order_id new_quantity : Nat) :
    Except OrderBookError Unit × OrderBook :=
  if new_quantity = 0 then (Except.error (OrderBookError.invalidQuantity new_quantity), b)
  else
    match lookupA b.order_id_to_index order_id with
    | none => (Except.error (OrderBookError.orderNotFound order_id), b)
    | some order_idx =>
      match slotGet b.orders order_idx with
      | none => (Except.error OrderBookError.panicked, b)
      | some o =>
        match o.parent_limit_index with
        | none => (Except.error OrderBookError.panicked, b)
        | some limit_idx =>
          let old_quantity := o.remaining_quantity
          match o.update_quantity new_quantity b.current_time with
          | (false, _) => (Except.error (OrderBookError.invalidQuantity new_quantity), b)
          | (true, o1) =>
            let b1 := { b with orders := setAt b.orders order_idx (some o1) }
            match modifyLimitAt b1 limit_idx
                (fun l => l.update_order_stats old_quantity o1.remaining_quantity) with
            | none => (Except.error OrderBookError.panicked, b1)
            | some b2 => (Except.ok (), b2)

/-- orderbook.rs: OrderBook::process_order (public dispatch). -/
def process_order (b : OrderBook) (order : Order) :
    Except OrderBookError Unit × OrderBook :=
  if order.quantity = 0 then
    match remove_order b order.id with
    | (Except.error e, b1) => (Except.error e, b1)
    | (Except.ok _, b1) => (Except.ok (), b1)
  else if b.contains_order order.id then update_order b order.id order.quantity
  else add_order b order

end OrderBook

/-! ### The matching engine (matching_engine.rs) -/

namespace MatchingEngine

/-- matching_engine.rs: MatchingEngine::execute_at_price.  The book is
only read, never written; the emitted trade carries the placeholder
passive order id 999999; only the incoming order is filled. -/
def execute_at_price (b : OrderBook) (incoming : Order) (price : Nat) :
    Option Trade × Order :=
  let available_quantity := (b.volume_at_price price).getD 0
  if available_quantity = 0 then (none, incoming)
  else
    let trade_quantity := min incoming.quantity available_quantity
    let passive_order_id := 999999
    let trade : Trade :=
      { aggressor_order_id := incoming.id, passive_order_id := passive_order_id,
        price := price, quantity := trade_quantity, timestamp := b.current_time,
        aggressor_side := incoming.side }
    (some trade, incoming.fill trade_quantity b.current_time)

/-- matching_engine.rs: the `while order.quantity > 0` loop of
MatchingEngine::match_buy_order.  The fuel argument is the number of
loop bodies still allowed before the MAX_ITERATIONS = 10000 safety
check fires; each body that does not break recurses with one less. -/
def match_buy_go (b : OrderBook) :
    Nat → Order → List Trade → Except OrderBookError (List Trade) × Order
  | 0, order, trades =>
    if order.quantity = 0 then (Except.ok trades, order)
    else (Except.error OrderBookError.treeError, order)
  | fuel + 1, order, trades =>
    if order.quantity = 0 then (Except.ok trades, order)
    else
      match b.best_ask with
      | none => (Except.ok trades, order)
      | some (ask_price, _) =>
        if order.price < ask_price then (Except.ok trades, order)
        else
          match execute_at_price b order ask_price with
          | (none, order1) => (Except.ok trades, order1)
          | (some trade, order1) => match_buy_go b fuel order1 (trades ++ [trade])

/-- matching_engine.rs: the loop of MatchingEngine::match_sell_order. -/
def match_sell_go (b : OrderBook) :
    Nat → Order → List Trade → Except OrderBookError (List Trade) × Order
  | 0, order, trades =>
    if order.quantity = 0 then (Except.ok trades, order)
    else (Except.error OrderBookError.treeError, order)
  | fuel + 1, order, trades =>
    if order.quantity = 0 then (Except.ok trades, order)
    else
      match b.best_bid with
      | none => (Except.ok trades, order)
      | some (bid_price, _) =>
        if order.price > bid_price then (Except.ok trades, order)
        else
          match execute_at_price b order bid_price with
          | (none, order1) => (Except.ok trades, order1)
          | (some trade, order1) => match_sell_go b fuel order1 (trades ++ [trade])

/-- matching_engine.rs: MAX_ITERATIONS. -/
def MAX_ITERATIONS : Nat := 10000

/-- matching_engine.rs: MatchingEngine::match_buy_order. -/
def match_buy_order (b : OrderBook) (order : Order) :
    Except OrderBookError (List Trade) × Order :=
  match_buy_go b MAX_ITERATIONS order []

/-- matching_engine.rs: MatchingEngine::match_sell_order. -/
def match_sell_order (b : OrderBook) (order : Order) :
    Except OrderBookError (List Trade) × Order :=
  match_sell_go b MAX_ITERATIONS order []

/-- matching_engine.rs: MatchingEngine::process_order. -/
def process_order (b : OrderBook) (order : Order) :
    Except OrderBookError (List Trade) × OrderBook :=
  let matched := if order.side = Side.buy then match_buy_order b order
                 else match_sell_order b order
  match matched with
  | (Except.error e, _) => (Except.error e, b)
  | (Except.ok trades, order1) =>
    if order1.quantity > 0 then
      match b.add_order order1 with
      | (Except.error e, b1) => (Except.error e, b1)
      | (Except.ok _, b1) => (Except.ok trades, b1)
    else (Except.ok trades, b)

/-- The residual working quantity of the incoming order once the match
phase of MatchingEngine::process_order has finished (the local
`order.remaining_quantity` at the `if order.quantity > 0` check). -/
def match_residual (b : OrderBook) (order : Order) : Nat :=
  (if order.side = Side.buy then match_buy_order b order
   else match_sell_order b order).2.remaining_quantity

end MatchingEngine

/-! ### Derived observables used in the statements -/

/-- The indices present in a side tree: every node reachable from the
root by child pointers.  A free arena slot has no readable children,
so the walk stops there (as every tree walk in orderbook.rs does). -/
def treeNodes (b : OrderBook) : Option Nat → Nat → List Nat
  | none, _ => []
  | some _, 0 => []
  | some idx, fuel + 1 =>
    match slotGet b.limits idx with
    | none => [idx]
    | some l =>
      idx :: (treeNodes b l.avl_node.left_child fuel ++ treeNodes b l.avl_node.right_child fuel)

/-- Volume at a price, defaulting to zero when the level is absent. -/
def vol0 (b : OrderBook) (price : Nat) : Nat :=
  (b.volume_at_price price).getD 0

/-- Sum of the quantities of a list of trades. -/
def tradesQty (trades : List Trade) : Nat :=
  (trades.map Trade.quantity).sum

/-- Is an Except result ok? -/
def isOkE {ε α : Type} : Except ε α → Bool
  | Except.ok _ => true
  | Except.error _ => false

deriving instance DecidableEq for Except

/-! ### Infrastructure lemmas -/

theorem setAt_get? {α : Type} (L : List α) (i k : Nat) (v : α) :
    (setAt L i v).get? k = if i = k ∧ i < L.length then some v else L.get? k := by
  induction L generalizing i k with
  | nil => simp [setAt]
  | cons x xs ih =>
    cases i with
    | zero =>
      cases k with
      | zero => simp [setAt]
      | succ k => simp [setAt]
    | succ i =>
      cases k with
      | zero => simp [setAt]
      | succ k => simpa [setAt, Nat.succ_lt_succ_iff] using ih i k

theorem setAt_length {α : Type} (L : List α) (i : Nat) (v : α) :
    (setAt L i v).length = L.length := by
  induction L generalizing i with
  | nil => simp [setAt]
  | cons x xs ih =>
    cases i with
    | zero => simp [setAt]
    | succ i => simp [setAt, ih]

theorem slotGet_setAt {α : Type} (L : List (Option α)) (i k : Nat) (v : Option α) :
    slotGet (setAt L i v) k =
      if i = k ∧ i < L.length then (match v with | some a => some a | none => none)
      else slotGet L k := by
  unfold slotGet
  rw [setAt_get?]
  by_cases h : i = k ∧ i < L.length
  · rw [if_pos h, if_pos h]
    cases v <;> rfl
  · rw [if_neg h, if_neg h]

theorem slotGet_lt {α : Type} {L : List (Option α)} {i : Nat} {a : α}
    (h : slotGet L i = some a) : i < L.length := by
  unfold slotGet at h
  cases hg : L.get? i with
  | none => rw [hg] at h; exact absurd h (by simp)
  | some v =>
    have := List.get?_eq_some.mp hg
    exact this.1

theorem slotGet_append_none {α : Type} (L : List (Option α)) (k : Nat) :
    slotGet (L ++ [none]) k = slotGet L k := by
  unfold slotGet
  rcases Nat.lt_trichotomy k L.length with hlt | heq | hgt
  · rw [List.get?_append hlt]
  · subst heq
    have h1 : (L ++ [(none : Option α)]).get? L.length = some none := by
      rw [List.get?_append_right (le_refl _)]
      simp
    have h2 : L.get? L.length = none := List.get?_eq_none.mpr (le_refl _)
    rw [h1, h2]
  · have h1 : (L ++ [(none : Option α)]).get? k = none := by
      apply List.get?_eq_none.mpr
      simp
      omega
    have h2 : L.get? k = none := List.get?_eq_none.mpr (by omega)
    rw [h1, h2]

theorem lookupA_insertA (m : List (Nat × Nat)) (k v k' : Nat) :
    lookupA (insertA m k v) k' = if k = k' then some v else lookupA m k' := by
  induction m with
  | nil => simp [insertA, lookupA]
  | cons p rest ih =>
    obtain ⟨a, c⟩ := p
    by_cases hak : a = k
    · subst hak
      by_cases hk' : a = k'
      · subst hk'
        simp [insertA, lookupA]
      · simp [insertA, lookupA, hk']
    · by_cases hk' : a = k'
      · subst hk'
        have hka : ¬ k = a := fun h => hak h.symm
        simp [insertA, lookupA, hak, hka]
      · simp [insertA, lookupA, hak, hk', ih]

namespace OrderBook

theorem modifyOrderAt_some {b b' : OrderBook} {i : Nat} {f : Order → Order}
    (h : modifyOrderAt b i f = some b') :
    ∃ o, slotGet b.orders i = some o ∧
      b' = { b with orders := setAt b.orders i (some (f o)) } := by
  unfold modifyOrderAt at h
  cases hs : slotGet b.orders i with
  | none => rw [hs] at h; exact absurd h (by simp)
  | some o =>
    rw [hs] at h
    exact ⟨o, rfl, by injection h with h; exact h.symm⟩

theorem modifyLimitAt_some {b b' : OrderBook} {i : Nat} {f : Limit → Limit}
    (h : modifyLimitAt b i f = some b') :
    ∃ l, slotGet b.limits i = some l ∧
      b' = { b with limits := setAt b.limits i (some (f l)) } := by
  unfold modifyLimitAt at h
  cases hs : slotGet b.limits i with
  | none => rw [hs] at h; exact absurd h (by simp)
  | some l =>
    rw [hs] at h
    exact ⟨l, rfl, by injection h with h; exact h.symm⟩

end OrderBook

theorem Order.fill_quantity_eq (o : Order) (q t : Nat) : (o.fill q t).quantity = o.quantity :=
  rfl

theorem Order.fill_price_eq (o : Order) (q t : Nat) : (o.fill q t).price = o.price :=
  rfl

namespace MatchingEngine

theorem execute_at_price_zero (b : OrderBook) (o : Order) (price : Nat)
    (h : (b.volume_at_price price).getD 0 = 0) :
    execute_at_price b o price = (none, o) := by
  unfold execute_at_price
  simp [h]

theorem execute_at_price_pos (b : OrderBook) (o : Order) (price : Nat)
    (h : ¬ (b.volume_at_price price).getD 0 = 0) :
    execute_at_price b o price =
      (some { aggressor_order_id := o.id, passive_order_id := 999999, price := price,
              quantity := min o.quantity ((b.volume_at_price price).getD 0),
              timestamp := b.current_time, aggressor_side := o.side },
       o.fill (min o.quantity ((b.volume_at_price price).getD 0)) b.current_time) := by
  unfold execute_at_price
  simp [h]

/-- On a book whose opposing best stays marketable and non-empty the
buy loop can only exhaust its iteration budget: the book is never
written, so the break conditions never change. -/
theorem match_buy_go_err (b : OrderBook) (ap aq : Nat)
    (hask : b.best_ask = some (ap, aq)) (hvol : ¬ (b.volume_at_price ap).getD 0 = 0) :
    ∀ (fuel : Nat) (o : Order) (trades : List Trade),
      ¬ o.quantity = 0 → ¬ o.price < ap →
      (match_buy_go b fuel o trades).1 = Except.error OrderBookError.treeError := by
  intro fuel
  induction fuel with
  | zero =>
    intro o trades hq _
    simp [match_buy_go, hq]
  | succ fuel ih =>
    intro o trades hq hp
    rw [match_buy_go, if_neg hq, hask]
    simp only
    rw [if_neg hp, execute_at_price_pos b o ap hvol]
    simp only
    exact ih _ _ (by rw [Order.fill_quantity_eq]; exact hq) (by rw [Order.fill_price_eq]; exact hp)

/-- If the buy loop returns Ok it never executed a single trade: the
returned list is the accumulator and the order is untouched. -/
theorem match_buy_go_ok (b : OrderBook) :
    ∀ (fuel : Nat) (o : Order) (trades ts : List Trade) (o' : Order),
      match_buy_go b fuel o trades = (Except.ok ts, o') → ts = trades ∧ o' = o := by
  intro fuel
  induction fuel with
  | zero =>
    intro o trades ts o' h
    by_cases hq : o.quantity = 0
    · rw [match_buy_go, if_pos hq] at h
      simp only [Prod.mk.injEq, Except.ok.injEq] at h
      exact ⟨h.1.symm, h.2.symm⟩
    · rw [match_buy_go, if_neg hq] at h
      simp only [Prod.mk.injEq] at h
      exact absurd h.1 (by simp)
  | succ fuel ih =>
    intro o trades ts o' h
    by_cases hq : o.quantity = 0
    · rw [match_buy_go, if_pos hq] at h
      simp only [Prod.mk.injEq, Except.ok.injEq] at h
      exact ⟨h.1.symm, h.2.symm⟩
    · rw [match_buy_go, if_neg hq] at h
      cases hask : b.best_ask with
      | none =>
        rw [hask] at h
        simp only [Prod.mk.injEq, Except.ok.injEq] at h
        exact ⟨h.1.symm, h.2.symm⟩
      | some pr =>
        obtain ⟨ap, aq⟩ := pr
        rw [hask] at h
        simp only at h
        by_cases hp : o.price < ap
        · rw [if_pos hp] at h
          simp only [Prod.mk.injEq, Except.ok.injEq] at h
          exact ⟨h.1.symm, h.2.symm⟩
        · rw [if_neg hp] at h
          by_cases hv : (b.volume_at_price ap).getD 0 = 0
          · rw [execute_at_price_zero b o ap hv] at h
            simp only [Prod.mk.injEq, Except.ok.injEq] at h
            exact ⟨h.1.symm, h.2.symm⟩
          · rw [execute_at_price_pos b o ap hv] at h
            simp only at h
            have hfst := congrArg Prod.fst h
            rw [match_buy_go_err b ap aq hask hv fuel] at hfst
            · exact absurd hfst.symm (by simp)
            · rw [Order.fill_quantity_eq]; exact hq
            · rw [Order.fill_price_eq]; exact hp

/-- Sell-side analogue of `match_buy_go_err`. -/
theorem match_sell_go_err (b : OrderBook) (bp bq : Nat)
    (hbid : b.best_bid = some (bp, bq)) (hvol : ¬ (b.volume_at_price bp).getD 0 = 0) :
    ∀ (fuel : Nat) (o : Order) (trades : List Trade),
      ¬ o.quantity = 0 → ¬ o.price > bp →
      (match_sell_go b fuel o trades).1 = Except.error OrderBookError.treeError := by
  intro fuel
  induction fuel with
  | zero =>
    intro o trades hq _
    simp [match_sell_go, hq]
  | succ fuel ih =>
    intro o trades hq hp
    rw [match_sell_go, if_neg hq, hbid]
    simp only
    rw [if_neg hp, execute_at_price_pos b o bp hvol]
    simp only
    exact ih _ _ (by rw [Order.fill_quantity_eq]; exact hq) (by rw [Order.fill_price_eq]; exact hp)

/-- Sell-side analogue of `match_buy_go_ok`. -/
theorem match_sell_go_ok (b : OrderBook) :
    ∀ (fuel : Nat) (o : Order) (trades ts : List Trade) (o' : Order),
      match_sell_go b fuel o trades = (Except.ok ts, o') → ts = trades ∧ o' = o := by
  intro fuel
  induction fuel with
  | zero =>
    intro o trades ts o' h
    by_cases hq : o.quantity = 0
    · rw [match_sell_go, if_pos hq] at h
      simp only [Prod.mk.injEq, Except.ok.injEq] at h
      exact ⟨h.1.symm, h.2.symm⟩
    · rw [match_sell_go, if_neg hq] at h
      simp only [Prod.mk.injEq] at h
      exact absurd h.1 (by simp)
  | succ fuel ih =>
    intro o trades ts o' h
    by_cases hq : o.quantity = 0
    · rw [match_sell_go, if_pos hq] at h
      simp only [Prod.mk.injEq, Except.ok.injEq] at h
      exact ⟨h.1.symm, h.2.symm⟩
    · rw [match_sell_go, if_neg hq] at h
      cases hbid : b.best_bid with
      | none =>
        rw [hbid] at h
        simp only [Prod.mk.injEq, Except.ok.injEq] at h
        exact ⟨h.1.symm, h.2.symm⟩
      | some pr =>
        obtain ⟨bp, bq⟩ := pr
        rw [hbid] at h
        simp only at h
        by_cases hp : o.price > bp
        · rw [if_pos hp] at h
          simp only [Prod.mk.injEq, Except.ok.injEq] at h
          exact ⟨h.1.symm, h.2.symm⟩
        · rw [if_neg hp] at h
          by_cases hv : (b.volume_at_price bp).getD 0 = 0
          · rw [execute_at_price_zero b o bp hv] at h
            simp only [Prod.mk.injEq, Except.ok.injEq] at h
            exact ⟨h.1.symm, h.2.symm⟩
          · rw [execute_at_price_pos b o bp hv] at h
            simp only at h
            have hfst := congrArg Prod.fst h
            rw [match_sell_go_err b bp bq hbid hv fuel] at hfst
            · exact absurd hfst.symm (by simp)
            · rw [Order.fill_quantity_eq]; exact hq
            · rw [Order.fill_price_eq]; exact hp

end MatchingEngine

/-! ### Concrete scenarios -/

/-- A book holding a single resting sell order (id 3, 150 @ 5050). -/
def bookOneAsk : OrderBook :=
  ((OrderBook.newBook.set_time 1002).add_order (Order.newOrder 3 Side.sell 150 5050 1002 1)).2

/-- An aggressive (marketable) buy order: id 5, 75 @ 5055. -/
def aggBuy : Order :=
  Order.newOrder 5 Side.buy 75 5055 1004 1

/-- The sequence exercising the two-children case of
OrderBook::remove_from_tree: three resting buy orders at prices 2, 1,
3 build a buy tree whose root (price 2) has two children, then the
order at price 2 is cancelled.  Everything below uses only the public
operations add_order / remove_order. -/
def bookR0 : OrderBook := OrderBook.newBook.set_time 1000

def bookR1 : OrderBook := (bookR0.add_order (Order.newOrder 1 Side.buy 10 2 1000 1)).2

def bookR2 : OrderBook := (bookR1.add_order (Order.newOrder 2 Side.buy 10 1 1001 1)).2

def bookR3 : OrderBook := (bookR2.add_order (Order.newOrder 3 Side.buy 10 3 1002 1)).2

def bookR4 : OrderBook := (bookR3.remove_order 1).2

/-- A fresh buy order at a new best price 5, added to the corrupted
book. -/
def ordR4 : Order := Order.newOrder 4 Side.buy 10 5 1003 1

def bookR5 : OrderBook := (bookR4.add_order ordR4).2

def bookR6 : OrderBook := (bookR5.remove_order 4).2

/-! ### Claim C1 -/

/-- C1: the claim that every emitted trade executes against the actual
head resting order of the opposing best level, carrying its id, and
that the passive order is reduced or cancelled through the book, fails
on the code: MatchingEngine::execute_at_price is a placeholder.  On a
book with one resting sell (id 3, 150 @ 5050) and the marketable buy
(id 5, 75 @ 5055), the engine (a) builds its trades with the dummy
passive id 999999, an id of no resting order, (b) never mutates the
book, and (c) because the break conditions therefore never change,
ends with the MAX_ITERATIONS TreeError and returns no trade at all. -/
theorem c1_engine_placeholder_diverges :
    MatchingEngine.process_order bookOneAsk aggBuy =
      (Except.error OrderBookError.treeError, bookOneAsk) ∧
    (MatchingEngine.execute_at_price bookOneAsk aggBuy 5050).1 =
      some { aggressor_order_id := 5, passive_order_id := 999999, price := 5050,
             quantity := 75, timestamp := 1002, aggressor_side := Side.buy } ∧
    bookOneAsk.contains_order 999999 = false ∧
    (bookOneAsk.get_order 3).map Order.remaining_quantity = some 150 := by
  refine ⟨?_, by decide, by decide, by decide⟩
  have herr := MatchingEngine.match_buy_go_err bookOneAsk 5050 150 (by decide) (by decide)
    MatchingEngine.MAX_ITERATIONS aggBuy [] (by decide) (by decide)
  unfold MatchingEngine.process_order MatchingEngine.match_buy_order
  rw [if_pos (show aggBuy.side = Side.buy from rfl)]
  cases hm : MatchingEngine.match_buy_go bookOneAsk MatchingEngine.MAX_ITERATIONS aggBuy [] with
  | mk fst snd =>
    rw [hm] at herr
    simp only at herr
    subst herr
    simp

/-! ### Claim C3 -/

/-- C3: the invariant "every level with at least one order is in
exactly its side tree, and empty levels are in no tree and not in the
price map" is broken by the two-children removal.  After the public
sequence bookR0..bookR4 (three adds, one cancel), the level at price 3
(arena slot 2) still holds one live buy order and is recorded in the
price map, yet it belongs to neither side tree; the buy tree consists
solely of the freed slot 0. -/
theorem c3_nonempty_level_left_out_of_tree :
    isOkE (bookR3.remove_order 1).1 = true ∧
    lookupA bookR4.price_to_limit_index 3 = some 2 ∧
    (slotGet bookR4.limits 2).map Limit.is_empty = some false ∧
    (slotGet bookR4.limits 2).map Limit.side = some Side.buy ∧
    ¬ 2 ∈ treeNodes bookR4 bookR4.buy_tree_root (bookR4.limits.length + 1) ∧
    treeNodes bookR4 bookR4.sell_tree_root (bookR4.limits.length + 1) = [] ∧
    bookR4.buy_tree_root = some 0 ∧
    slotGet bookR4.limits 0 = none := by
  decide

/-! ### Claim C4 -/

/-- C4: the invariant "the cached best-bid handle, when set, refers to
the level with the maximum price in the buy-side tree" is broken by
the same sequence: after bookR4 the cached best-bid handle is slot 2,
but slot 2 is not a node of the buy tree at all, and the buy tree
contains no occupied level whatsoever. -/
theorem c4_best_bid_cache_detached_from_tree :
    bookR4.best_bid_index = some 2 ∧
    bookR4.best_bid = some (3, 10) ∧
    ¬ 2 ∈ treeNodes bookR4 bookR4.buy_tree_root (bookR4.limits.length + 1) ∧
    (treeNodes bookR4 bookR4.buy_tree_root (bookR4.limits.length + 1)).filter
      (fun i => (slotGet bookR4.limits i).isSome) = [] := by
  decide

/-! ### Claim C5 -/

/-- C5: "add(o); cancel(o.id) is an identity on the book" fails on the
reachable state bookR4 (built by public adds and one cancel).  Adding
order 4 (10 @ 5, a fresh price) succeeds and cancelling it succeeds,
yet the best bid changes from (3, 10) to none, although the same two
live orders with the same volumes remain on the book. -/
theorem c5_add_cancel_not_identity :
    isOkE (bookR4.add_order ordR4).1 = true ∧
    isOkE (bookR5.remove_order 4).1 = true ∧
    bookR4.best_bid = some (3, 10) ∧
    bookR6.best_bid = none ∧
    bookR4.total_orders = 2 ∧
    bookR6.total_orders = 2 ∧
    bookR4.volume_at_price 3 = some 10 ∧
    bookR6.volume_at_price 3 = some 10 ∧
    bookR4.volume_at_price 1 = some 10 ∧
    bookR6.volume_at_price 1 = some 10 := by
  decide

/-! ### Claim C8 -/

/-- C8: spread() returns none when either side's best is absent; when
both exist it returns best-ask minus best-bid if the ask is strictly
greater than the bid and zero otherwise. -/
theorem c8_spread_spec (b : OrderBook) :
    ((b.best_bid = none ∨ b.best_ask = none) → b.spread = none) ∧
    (∀ ap aq bp bq, b.best_ask = some (ap, aq) → b.best_bid = some (bp, bq) →
      b.spread = some (if bp < ap then ap - bp else 0)) := by
  constructor
  · intro h
    unfold OrderBook.spread
    cases hask : b.best_ask with
    | none => rfl
    | some pa =>
      obtain ⟨ap, aq⟩ := pa
      cases hbid : b.best_bid with
      | none => rfl
      | some pb =>
        rcases h with h | h
        · rw [h] at hbid; cases hbid
        · rw [h] at hask; cases hask
  · intro ap aq bp bq hask hbid
    unfold OrderBook.spread
    rw [hask, hbid]
    by_cases hc : bp < ap
    · simp only [gt_iff_lt, hc, if_true]
    · simp only [gt_iff_lt, hc, if_false]

/-- A two-sided book used as the C8 witness: one bid 10 @ 100, one ask
10 @ 200. -/
def bookBothSides : OrderBook :=
  ((OrderBook.newBook.add_order (Order.newOrder 1 Side.buy 10 100 0 1)).2.add_order
    (Order.newOrder 2 Side.sell 10 200 0 1)).2

/-- Witness for C8 at a concrete two-sided book. -/
theorem c8_spread_spec_witness :
    bookBothSides.best_ask = some (200, 10) ∧ bookBothSides.best_bid = some (100, 10) ∧
    bookBothSides.spread = some (if 100 < 200 then 200 - 100 else 0) ∧
    bookBothSides.spread = some 100 := by
  refine ⟨by decide, by decide, ?_, by decide⟩
  exact (c8_spread_spec bookBothSides).2 200 10 100 10 (by decide) (by decide)

/-! ### Claim C9 -/

/-- C9: process(o) with o.quantity = 0 dispatches straight to
remove_order without checking liveness first, so when the id is not
live it fails with OrderNotFound carrying the id and returns the book
unchanged. -/
theorem c9_process_zero_quantity_not_live (b : OrderBook) (o : Order)
    (hq : o.quantity = 0) (hlive : b.contains_order o.id = false) :
    b.process_order o = (Except.error (OrderBookError.orderNotFound o.id), b) := by
  have hlook : lookupA b.order_id_to_index o.id = none := by
    unfold OrderBook.contains_order at hlive
    cases hl : lookupA b.order_id_to_index o.id with
    | none => rfl
    | some v => rw [hl] at hlive; simp at hlive
  unfold OrderBook.process_order
  rw [if_pos hq]
  unfold OrderBook.remove_order
  rw [hlook]

/-- Witness for C9: an absent id with a zero-quantity order on the
empty book. -/
theorem c9_process_zero_quantity_not_live_witness :
    (Order.newOrder 9 Side.buy 0 100 0 1).quantity = 0 ∧
    OrderBook.newBook.contains_order 9 = false ∧
    OrderBook.newBook.process_order (Order.newOrder 9 Side.buy 0 100 0 1) =
      (Except.error (OrderBookError.orderNotFound 9), OrderBook.newBook) := by
  refine ⟨rfl, rfl, ?_⟩
  exact c9_process_zero_quantity_not_live OrderBook.newBook _ rfl rfl

/-! ### Claim C7 -/

namespace OrderBook

/-- get_or_create_limit can only fail by panicking; it produces no
taxonomy error. -/
theorem get_or_create_limit_not_error (b : OrderBook) (p : Nat) (s : Side)
    (e : OrderBookError) (he : (get_or_create_limit b p s).1 = Except.error e) :
    e = OrderBookError.panicked := by
  unfold get_or_create_limit at he
  dsimp only at he
  (repeat' split at he) <;> simp_all

/-- add_order_to_limit can only fail by panicking. -/
theorem add_order_to_limit_not_error (b : OrderBook) (oi j q : Nat)
    (e : OrderBookError) (he : (add_order_to_limit b oi j q).1 = Except.error e) :
    e = OrderBookError.panicked := by
  unfold add_order_to_limit at he
  dsimp only at he
  (repeat' split at he) <;> simp_all

/-- add_order_to_book can only fail by panicking: it never returns a
validation error. -/
theorem add_order_to_book_not_error (b : OrderBook) (o : Order)
    (e : OrderBookError) (he : (add_order_to_book b o).1 = Except.error e) :
    e = OrderBookError.panicked := by
  unfold add_order_to_book at he
  dsimp only at he
  split at he
  case h_1 e1 b3 heq =>
    dsimp only at he
    injection he with he
    subst he
    exact get_or_create_limit_not_error _ _ _ _ (by rw [heq])
  case h_2 j b3 heq =>
    split at he
    case h_1 e1 b4 heq2 =>
      dsimp only at he
      injection he with he
      subst he
      exact add_order_to_limit_not_error _ _ _ _ _ (by rw [heq2])
    case h_2 u b4 heq2 =>
      split at he
      · simp only [Except.error.injEq] at he
        exact he.symm
      · simp at he

/-- Classification used below: add_order_to_book succeeds or panics. -/
theorem add_order_to_book_classify (b : OrderBook) (o : Order) :
    (add_order_to_book b o).1 = Except.ok () ∨
    (add_order_to_book b o).1 = Except.error OrderBookError.panicked := by
  cases hres : (add_order_to_book b o).1 with
  | ok u => cases u; exact Or.inl rfl
  | error e =>
    right
    exact congrArg Except.error (add_order_to_book_not_error b o e hres)

end OrderBook

/-- C7: add_order fails with InvalidPrice exactly when the price is
zero, otherwise with InvalidQuantity exactly when the quantity is
zero, otherwise with OrderAlreadyExists exactly when the id is live;
on each of those failures the book is returned unchanged. -/
theorem c7_add_order_validation (b : OrderBook) (o : Order) :
    ((∃ p, (b.add_order o).1 = Except.error (OrderBookError.invalidPrice p)) ↔ o.price = 0) ∧
    ((∃ q, (b.add_order o).1 = Except.error (OrderBookError.invalidQuantity q)) ↔
      (¬ o.price = 0 ∧ o.quantity = 0)) ∧
    ((∃ i, (b.add_order o).1 = Except.error (OrderBookError.orderAlreadyExists i)) ↔
      (¬ o.price = 0 ∧ ¬ o.quantity = 0 ∧ b.contains_order o.id = true)) ∧
    (((b.add_order o).1 = Except.error (OrderBookError.invalidPrice o.price) ∨
      (b.add_order o).1 = Except.error (OrderBookError.invalidQuantity o.quantity) ∨
      (b.add_order o).1 = Except.error (OrderBookError.orderAlreadyExists o.id)) →
      (b.add_order o).2 = b) := by
  by_cases hp : o.price = 0
  · unfold OrderBook.add_order
    rw [if_pos hp]
    refine ⟨⟨fun _ => hp, fun _ => ⟨o.price, rfl⟩⟩, ?_, ?_, fun _ => rfl⟩
    · constructor
      · rintro ⟨q, hq⟩
        simp at hq
      · rintro ⟨hcon, _⟩
        exact absurd hp hcon
    · constructor
      · rintro ⟨i, hi⟩
        simp at hi
      · rintro ⟨hcon, _⟩
        exact absurd hp hcon
  · by_cases hq : o.quantity = 0
    · unfold OrderBook.add_order
      rw [if_neg hp, if_pos hq]
      refine ⟨?_, ⟨fun _ => ⟨hp, hq⟩, fun _ => ⟨o.quantity, rfl⟩⟩, ?_, fun _ => rfl⟩
      · constructor
        · rintro ⟨p, hpe⟩
          simp at hpe
        · intro hc
          exact absurd hc hp
      · constructor
        · rintro ⟨i, hi⟩
          simp at hi
        · rintro ⟨_, hcon, _⟩
          exact absurd hq hcon
    · by_cases hc : b.contains_order o.id
      · unfold OrderBook.add_order
        rw [if_neg hp, if_neg hq, if_pos hc]
        refine ⟨?_, ?_, ⟨fun _ => ⟨hp, hq, hc⟩, fun _ => ⟨o.id, rfl⟩⟩, fun _ => rfl⟩
        · constructor
          · rintro ⟨p, hpe⟩
            simp at hpe
          · intro hcon
            exact absurd hcon hp
        · constructor
          · rintro ⟨qq, hqe⟩
            simp at hqe
          · rintro ⟨_, hcon⟩
            exact absurd hcon hq
      · have hclass := OrderBook.add_order_to_book_classify b { o with event_time := b.current_time }
        unfold OrderBook.add_order
        rw [if_neg hp, if_neg hq, if_neg hc]
        refine ⟨?_, ?_, ?_, ?_⟩
        · constructor
          · rintro ⟨p, hpe⟩
            rcases hclass with hcl | hcl <;> rw [hcl] at hpe <;> simp at hpe
          · intro hcon
            exact absurd hcon hp
        · constructor
          · rintro ⟨qq, hqe⟩
            rcases hclass with hcl | hcl <;> rw [hcl] at hqe <;> simp at hqe
          · rintro ⟨_, hcon⟩
            exact absurd hcon hq
        · constructor
          · rintro ⟨i, hie⟩
            rcases hclass with hcl | hcl <;> rw [hcl] at hie <;> simp at hie
          · rintro ⟨_, _, hcon⟩
            exact absurd hcon hc
        · intro hcases
          rcases hclass with hcl | hcl <;>
            rcases hcases with hx | hx | hx <;> rw [hcl] at hx <;> simp at hx

/-- Witness for C7: a zero-price add on the empty book fails with
InvalidPrice and leaves the book unchanged. -/
theorem c7_add_order_validation_witness :
    (∃ p, (OrderBook.newBook.add_order (Order.newOrder 1 Side.buy 5 0 0 1)).1 =
      Except.error (OrderBookError.invalidPrice p)) ∧
    (OrderBook.newBook.add_order (Order.newOrder 1 Side.buy 5 0 0 1)).2 = OrderBook.newBook := by
  refine ⟨(c7_add_order_validation OrderBook.newBook (Order.newOrder 1 Side.buy 5 0 0 1)).1.mpr rfl, ?_⟩
  exact (c7_add_order_validation OrderBook.newBook (Order.newOrder 1 Side.buy 5 0 0 1)).2.2.2
    (Or.inl (by decide))

/-! ### Claim C10 -/

/-- Order::update_quantity never touches identity, side, price, entry
time, venue, or the three queue handles. -/
theorem Order.update_quantity_frame (o : Order) (nq t : Nat) :
    ((o.update_quantity nq t).2.id = o.id) ∧
    ((o.update_quantity nq t).2.side = o.side) ∧
    ((o.update_quantity nq t).2.price = o.price) ∧
    ((o.update_quantity nq t).2.entry_time = o.entry_time) ∧
    ((o.update_quantity nq t).2.exchange_id = o.exchange_id) ∧
    ((o.update_quantity nq t).2.next_order_index = o.next_order_index) ∧
    ((o.update_quantity nq t).2.prev_order_index = o.prev_order_index) ∧
    ((o.update_quantity nq t).2.parent_limit_index = o.parent_limit_index) := by
  unfold Order.update_quantity
  by_cases h : nq < o.filled_quantity <;> simp [h]

/-- On success Order::update_quantity installs the new total quantity,
the residual new total minus filled, and the event time. -/
theorem Order.update_quantity_true (o : Order) (nq t : Nat)
    (h : (o.update_quantity nq t).1 = true) :
    (o.update_quantity nq t).2.quantity = nq ∧
    (o.update_quantity nq t).2.remaining_quantity = nq - o.filled_quantity ∧
    (o.update_quantity nq t).2.event_time = t ∧
    ¬ nq < o.filled_quantity := by
  unfold Order.update_quantity at h ⊢
  by_cases hc : nq < o.filled_quantity
  · rw [if_pos hc] at h
    simp at h
  · rw [if_neg hc]
    exact ⟨rfl, rfl, rfl, hc⟩

/-- Limit::update_order_stats changes only size and notional. -/
theorem Limit.update_order_stats_frame (l : Limit) (oldq newq : Nat) :
    ((l.update_order_stats oldq newq).price = l.price) ∧
    ((l.update_order_stats oldq newq).order_count = l.order_count) ∧
    ((l.update_order_stats oldq newq).side = l.side) ∧
    ((l.update_order_stats oldq newq).avl_node = l.avl_node) ∧
    ((l.update_order_stats oldq newq).head_order_index = l.head_order_index) ∧
    ((l.update_order_stats oldq newq).tail_order_index = l.tail_order_index) := by
  unfold Limit.update_order_stats
  split_ifs <;> simp

/-- The size written by Limit::update_order_stats. -/
theorem Limit.update_order_stats_size (l : Limit) (oldq newq : Nat) :
    (l.update_order_stats oldq newq).size =
      if newq > oldq then l.size + (newq - oldq)
      else if oldq > newq then l.size - (oldq - newq) else l.size := by
  unfold Limit.update_order_stats
  split_ifs <;> simp_all

namespace OrderBook

/-- The shape of a successful update_order: exactly the stored order
and its owning level change, the order slot getting the output of
Order::update_quantity and the level slot the output of
Limit::update_order_stats. -/
theorem update_order_ok_shape (b : OrderBook) (order_id q : Nat)
    (h : (b.update_order order_id q).1 = Except.ok ()) :
    ∃ i j o l,
      lookupA b.order_id_to_index order_id = some i ∧
      slotGet b.orders i = some o ∧
      o.parent_limit_index = some j ∧
      slotGet b.limits j = some l ∧
      ¬ q = 0 ∧
      (o.update_quantity q b.current_time).1 = true ∧
      b.update_order order_id q =
        (Except.ok (),
          { b with
            orders := setAt b.orders i (some (o.update_quantity q b.current_time).2),
            limits := setAt b.limits j
              (some (l.update_order_stats o.remaining_quantity
                (o.update_quantity q b.current_time).2.remaining_quantity)) }) := by
  by_cases hq : q = 0
  · rw [update_order, if_pos hq] at h
    simp at h
  · cases hlook : lookupA b.order_id_to_index order_id with
    | none =>
      rw [update_order, if_neg hq, hlook] at h
      simp at h
    | some i =>
      cases hslot : slotGet b.orders i with
      | none =>
        rw [update_order, if_neg hq, hlook] at h
        dsimp only at h
        rw [hslot] at h
        simp at h
      | some o =>
        cases hpar : o.parent_limit_index with
        | none =>
          rw [update_order, if_neg hq, hlook] at h
          dsimp only at h
          rw [hslot] at h
          dsimp only at h
          rw [hpar] at h
          simp at h
        | some j =>
          cases hupd : o.update_quantity q b.current_time with
          | mk ok1 o1 =>
            cases ok1 with
            | false =>
              rw [update_order, if_neg hq, hlook] at h
              dsimp only at h
              rw [hslot] at h
              dsimp only at h
              rw [hpar] at h
              dsimp only at h
              rw [hupd] at h
              simp at h
            | true =>
              have hstep : b.update_order order_id q =
                  (match modifyLimitAt { b with orders := setAt b.orders i (some o1) } j
                      (fun l => l.update_order_stats o.remaining_quantity o1.remaining_quantity) with
                   | none => (Except.error OrderBookError.panicked,
                       { b with orders := setAt b.orders i (some o1) })
                   | some b2 => (Except.ok (), b2)) := by
                rw [update_order, if_neg hq, hlook]
                dsimp only
                rw [hslot]
                dsimp only
                rw [hpar]
                dsimp only
                rw [hupd]
              cases hmod : modifyLimitAt { b with orders := setAt b.orders i (some o1) } j
                  (fun l => l.update_order_stats o.remaining_quantity o1.remaining_quantity) with
              | none =>
                rw [hstep, hmod] at h
                simp at h
              | some b2 =>
                obtain ⟨l, hl, hb2⟩ := modifyLimitAt_some hmod
                refine ⟨i, j, o, l, rfl, hslot, hpar, hl, hq, by rw [hupd], ?_⟩
                rw [hstep, hmod, hb2, hupd]

end OrderBook

/-- C10: a successful update(id, q) rewrites only the stored order's
quantity fields, status and event time and the owning level's size and
notional; the order's id, side, price, entry time and queue links, the
level's price, count, side, tree node and queue endpoints, every other
order, every other level, and every remaining book field are
unchanged. -/
theorem c10_update_order_frame (b : OrderBook) (order_id q : Nat)
    (h : (b.update_order order_id q).1 = Except.ok ()) :
    ∃ i j o l o1 l1,
      lookupA b.order_id_to_index order_id = some i ∧
      slotGet b.orders i = some o ∧
      o.parent_limit_index = some j ∧
      slotGet b.limits j = some l ∧
      (b.update_order order_id q).2 =
        { b with orders := setAt b.orders i (some o1), limits := setAt b.limits j (some l1) } ∧
      o1.id = o.id ∧ o1.side = o.side ∧ o1.price = o.price ∧
      o1.entry_time = o.entry_time ∧ o1.exchange_id = o.exchange_id ∧
      o1.next_order_index = o.next_order_index ∧
      o1.prev_order_index = o.prev_order_index ∧
      o1.parent_limit_index = o.parent_limit_index ∧
      o1.quantity = q ∧ o1.event_time = b.current_time ∧
      l1.price = l.price ∧ l1.order_count = l.order_count ∧ l1.side = l.side ∧
      l1.avl_node = l.avl_node ∧ l1.head_order_index = l.head_order_index ∧
      l1.tail_order_index = l.tail_order_index ∧
      (∀ k, ¬ k = i → (b.update_order order_id q).2.orders.get? k = b.orders.get? k) ∧
      (∀ k, ¬ k = j → (b.update_order order_id q).2.limits.get? k = b.limits.get? k) := by
  obtain ⟨i, j, o, l, hlook, hslot, hpar, hl, hq, htrue, heq⟩ :=
    OrderBook.update_order_ok_shape b order_id q h
  obtain ⟨f1, f2, f3, f4, f5, f6, f7, f8⟩ := Order.update_quantity_frame o q b.current_time
  obtain ⟨g1, g2, g3, g4, g5, g6⟩ :=
    Limit.update_order_stats_frame l o.remaining_quantity
      (o.update_quantity q b.current_time).2.remaining_quantity
  obtain ⟨u1, _, u3, _⟩ := Order.update_quantity_true o q b.current_time htrue
  refine ⟨i, j, o, l,
    (o.update_quantity q b.current_time).2,
    l.update_order_stats o.remaining_quantity
      (o.update_quantity q b.current_time).2.remaining_quantity,
    hlook, hslot, hpar, hl, by rw [heq], f1, f2, f3, f4, f5, f6, f7, f8, u1, u3,
    g1, g2, g3, g4, g5, g6, ?_, ?_⟩
  · intro k hk
    rw [heq]
    simp only
    rw [setAt_get?]
    rw [if_neg (by rintro ⟨h1, _⟩; exact hk h1.symm)]
  · intro k hk
    rw [heq]
    simp only
    rw [setAt_get?]
    rw [if_neg (by rintro ⟨h1, _⟩; exact hk h1.symm)]

/-- A one-order book used as the C10 witness: order 7, 5 @ 50. -/
def bookOneBid : OrderBook :=
  ((OrderBook.newBook.set_time 1000).add_order (Order.newOrder 7 Side.buy 5 50 1000 1)).2

/-- Witness for C10: updating order 7 from 5 to 8 succeeds and the
frame property holds at that input. -/
theorem c10_update_order_frame_witness :
    (bookOneBid.update_order 7 8).1 = Except.ok () ∧
    (∃ i j o l o1 l1,
      lookupA bookOneBid.order_id_to_index 7 = some i ∧
      slotGet bookOneBid.orders i = some o ∧
      o.parent_limit_index = some j ∧
      slotGet bookOneBid.limits j = some l ∧
      (bookOneBid.update_order 7 8).2 =
        { bookOneBid with
          orders := setAt bookOneBid.orders i (some o1),
          limits := setAt bookOneBid.limits j (some l1) } ∧
      o1.id = o.id ∧ o1.side = o.side ∧ o1.price = o.price ∧
      o1.entry_time = o.entry_time ∧ o1.exchange_id = o.exchange_id ∧
      o1.next_order_index = o.next_order_index ∧
      o1.prev_order_index = o.prev_order_index ∧
      o1.parent_limit_index = o.parent_limit_index ∧
      o1.quantity = 8 ∧ o1.event_time = bookOneBid.current_time ∧
      l1.price = l.price ∧ l1.order_count = l.order_count ∧ l1.side = l.side ∧
      l1.avl_node = l.avl_node ∧ l1.head_order_index = l.head_order_index ∧
      l1.tail_order_index = l.tail_order_index ∧
      (∀ k, ¬ k = i → (bookOneBid.update_order 7 8).2.orders.get? k = bookOneBid.orders.get? k) ∧
      (∀ k, ¬ k = j → (bookOneBid.update_order 7 8).2.limits.get? k = bookOneBid.limits.get? k)) := by
  refine ⟨by decide, ?_⟩
  exact c10_update_order_frame bookOneBid 7 8 (by decide)

/-! ### Claim C6 -/

/-- A partially-filled order as the caller may craft it (all Order
fields are public in the Rust API): total quantity 5, of which 2 are
already filled (remaining 3). -/
def craftedOrder : Order :=
  { id := 1, side := Side.buy, quantity := 5, remaining_quantity := 3, price := 100,
    entry_time := 1000, event_time := 1000, exchange_id := 1, status := OrderStatus.active,
    next_order_index := none, prev_order_index := none, parent_limit_index := none }

/-- The book holding only the crafted partially-filled order (add_order
accepts it and books its remaining quantity, 3, at price 100). -/
def bookCrafted : OrderBook :=
  ((OrderBook.newBook.set_time 1000).add_order craftedOrder).2

/-- C6 counterexample: for the live order o with total quantity 5,
working quantity 3 (filled 2) at price 100, update(o.id, 4) succeeds
(4 is positive and not below the filled amount 2), but the volume at
price 100 becomes 2 = prior size 3 + (4 - 5), not the claimed prior
size plus (q minus prior working quantity) = 3 + (4 - 3) = 4. -/
theorem c6_working_quantity_formula_fails :
    isOkE ((OrderBook.newBook.set_time 1000).add_order craftedOrder).1 = true ∧
    bookCrafted.volume_at_price 100 = some 3 ∧
    (bookCrafted.get_order 1).map Order.remaining_quantity = some 3 ∧
    (bookCrafted.get_order 1).map Order.filled_quantity = some 2 ∧
    (bookCrafted.update_order 1 4).1 = Except.ok () ∧
    (bookCrafted.update_order 1 4).2.volume_at_price 100 = some 2 ∧
    ¬ (bookCrafted.update_order 1 4).2.volume_at_price 100 = some (3 + (4 - 3)) := by
  decide

/-- C6 as amended: under the same liveness and coherence hypotheses,
update(o.id, q) succeeds and the volume at o.price equals the prior
level size plus (q minus o's prior TOTAL quantity) - equivalently plus
((q - filled) - prior working quantity) - and o keeps its position in
the level's FIFO queue. -/
theorem c6_update_volume_amended (b : OrderBook) (o : Order) (i j q : Nat) (l : Limit)
    (hlook : lookupA b.order_id_to_index o.id = some i)
    (hslot : slotGet b.orders i = some o)
    (hpar : o.parent_limit_index = some j)
    (hlim : slotGet b.limits j = some l)
    (hmap : lookupA b.price_to_limit_index o.price = some j)
    (hwf1 : o.remaining_quantity ≤ o.quantity)
    (hwf2 : o.remaining_quantity ≤ l.size)
    (hq : ¬ q = 0)
    (hfill : o.quantity - o.remaining_quantity ≤ q) :
    (b.update_order o.id q).1 = Except.ok () ∧
    (∃ s, (b.update_order o.id q).2.volume_at_price o.price = some s ∧
      (s : ℤ) = (l.size : ℤ) + (q : ℤ) - (o.quantity : ℤ)) ∧
    (∃ o1, slotGet (b.update_order o.id q).2.orders i = some o1 ∧
      o1.next_order_index = o.next_order_index ∧
      o1.prev_order_index = o.prev_order_index ∧
      o1.parent_limit_index = some j) ∧
    (∃ l1, slotGet (b.update_order o.id q).2.limits j = some l1 ∧
      l1.head_order_index = l.head_order_index ∧
      l1.tail_order_index = l.tail_order_index) := by
  have hupd1 : (o.update_quantity q b.current_time).1 = true := by
    unfold Order.update_quantity
    rw [if_neg (by unfold Order.filled_quantity; omega)]
  have hsucc : (b.update_order o.id q).1 = Except.ok () := by
    rw [OrderBook.update_order, if_neg hq, hlook]
    dsimp only
    rw [hslot]
    dsimp only
    rw [hpar]
    dsimp only
    cases hupd : o.update_quantity q b.current_time with
    | mk t o1 =>
      cases t with
      | false => rw [hupd] at hupd1; simp at hupd1
      | true =>
        dsimp only
        have hmod : OrderBook.modifyLimitAt { b with orders := setAt b.orders i (some o1) } j
            (fun l => l.update_order_stats o.remaining_quantity o1.remaining_quantity) =
            some { b with
              orders := setAt b.orders i (some o1),
              limits := setAt b.limits j
                (some (l.update_order_stats o.remaining_quantity o1.remaining_quantity)) } := by
          unfold OrderBook.modifyLimitAt
          rw [show slotGet ({ b with orders := setAt b.orders i (some o1) } : OrderBook).limits j =
              some l from hlim]
        rw [hmod]
  obtain ⟨i2, j2, o2, l2, hlook2, hslot2, hpar2, hlim2, _, htrue2, heq⟩ :=
    OrderBook.update_order_ok_shape b o.id q hsucc
  have hi : i2 = i := by rw [hlook] at hlook2; injection hlook2 with h; exact h.symm
  have ho : o2 = o := by rw [hi, hslot] at hslot2; injection hslot2 with h; exact h.symm
  have hj : j2 = j := by rw [ho, hpar] at hpar2; injection hpar2 with h; exact h.symm
  have hl : l2 = l := by rw [hj, hlim] at hlim2; injection hlim2 with h; exact h.symm
  rw [hi, hj, ho, hl] at heq
  rw [ho] at htrue2
  have hjlen : j < b.limits.length := slotGet_lt hlim
  have hilen : i < b.orders.length := slotGet_lt hslot
  obtain ⟨hu1, hu2, _, _⟩ := Order.update_quantity_true o q b.current_time htrue2
  refine ⟨hsucc, ?_, ?_, ?_⟩
  · refine ⟨(l.update_order_stats o.remaining_quantity
      (o.update_quantity q b.current_time).2.remaining_quantity).size, ?_, ?_⟩
    · rw [heq]
      unfold OrderBook.volume_at_price
      try dsimp only
      rw [hmap]
      simp only [Option.some_bind]
      rw [slotGet_setAt, if_pos ⟨rfl, hjlen⟩]
      rfl
    · rw [Limit.update_order_stats_size, hu2]
      unfold Order.filled_quantity
      split_ifs <;> push_cast <;> omega
  · refine ⟨(o.update_quantity q b.current_time).2, ?_, ?_, ?_, ?_⟩
    · rw [heq]
      try dsimp only
      rw [slotGet_setAt, if_pos ⟨rfl, hilen⟩]
    · exact (Order.update_quantity_frame o q b.current_time).2.2.2.2.2.1
    · exact (Order.update_quantity_frame o q b.current_time).2.2.2.2.2.2.1
    · rw [(Order.update_quantity_frame o q b.current_time).2.2.2.2.2.2.2, hpar]
  · refine ⟨l.update_order_stats o.remaining_quantity
      (o.update_quantity q b.current_time).2.remaining_quantity, ?_, ?_, ?_⟩
    · rw [heq]
      try dsimp only
      rw [slotGet_setAt, if_pos ⟨rfl, hjlen⟩]
    · exact (Limit.update_order_stats_frame l _ _).2.2.2.2.1
    · exact (Limit.update_order_stats_frame l _ _).2.2.2.2.2

/-- Witness for the amended C6 at the crafted book: the new volume is
3 + 4 - 5 = 2. -/
theorem c6_update_volume_amended_witness :
    lookupA bookCrafted.order_id_to_index craftedOrder.id = some 0 ∧
    ((bookCrafted.update_order craftedOrder.id 4).1 = Except.ok () ∧
    (∃ s, (bookCrafted.update_order craftedOrder.id 4).2.volume_at_price craftedOrder.price =
        some s ∧
      (s : ℤ) = (3 : ℤ) + (4 : ℤ) - (craftedOrder.quantity : ℤ)) ∧
    (∃ o1, slotGet (bookCrafted.update_order craftedOrder.id 4).2.orders 0 = some o1 ∧
      o1.next_order_index = craftedOrder.next_order_index ∧
      o1.prev_order_index = craftedOrder.prev_order_index ∧
      o1.parent_limit_index = some 0) ∧
    (∃ l1, slotGet (bookCrafted.update_order craftedOrder.id 4).2.limits 0 = some l1 ∧
      l1.head_order_index = some 0 ∧
      l1.tail_order_index = some 0)) := by
  constructor
  · decide
  · have hlim : slotGet bookCrafted.limits 0 = some
        { price := 100, size := 3, total_volume := 300, order_count := 1, side := Side.buy,
          avl_node := AvlNode.newNode, head_order_index := some 0, tail_order_index := some 0 } := by
      decide
    have hord : slotGet bookCrafted.orders 0 = some
        { craftedOrder with parent_limit_index := some 0 } := by
      decide
    have h := c6_update_volume_amended bookCrafted
      { craftedOrder with parent_limit_index := some 0 } 0 0 4
      { price := 100, size := 3, total_volume := 300, order_count := 1, side := Side.buy,
        avl_node := AvlNode.newNode, head_order_index := some 0, tail_order_index := some 0 }
      (by decide) hord (by decide) hlim (by decide) (by decide) (by decide) (by decide) (by decide)
    exact h

/-! ### Claim C2 -/

/-- All Limit fields except the tree-node metadata. -/
def limStats (l : Limit) : Nat × Nat × Nat × Nat × Side × Option Nat × Option Nat :=
  (l.price, l.size, l.total_volume, l.order_count, l.side, l.head_order_index, l.tail_order_index)

/-- Relation between book states that differ at most in limit tree
metadata (and in nothing else). -/
def treeMetaOnly (b b' : OrderBook) : Prop :=
  b'.orders = b.orders ∧
  b'.free_order_indices = b.free_order_indices ∧
  b'.order_id_to_index = b.order_id_to_index ∧
  b'.free_limit_indices = b.free_limit_indices ∧
  b'.price_to_limit_index = b.price_to_limit_index ∧
  b'.buy_tree_root = b.buy_tree_root ∧
  b'.sell_tree_root = b.sell_tree_root ∧
  b'.best_bid_index = b.best_bid_index ∧
  b'.best_ask_index = b.best_ask_index ∧
  b'.current_time = b.current_time ∧
  (∀ k, (slotGet b'.limits k).map limStats = (slotGet b.limits k).map limStats)

theorem treeMetaOnly_refl (b : OrderBook) : treeMetaOnly b b :=
  ⟨rfl, rfl, rfl, rfl, rfl, rfl, rfl, rfl, rfl, rfl, fun _ => rfl⟩

theorem treeMetaOnly_trans {a b c : OrderBook}
    (h1 : treeMetaOnly a b) (h2 : treeMetaOnly b c) : treeMetaOnly a c := by
  obtain ⟨x1, x2, x3, x4, x5, x6, x7, x8, x9, x10, x11⟩ := h1
  obtain ⟨y1, y2, y3, y4, y5, y6, y7, y8, y9, y10, y11⟩ := h2
  exact ⟨y1.trans x1, y2.trans x2, y3.trans x3, y4.trans x4, y5.trans x5, y6.trans x6,
    y7.trans x7, y8.trans x8, y9.trans x9, y10.trans x10, fun k => (y11 k).trans (x11 k)⟩

namespace OrderBook

/-- A modifyLimitAt whose function touches only avl_node preserves
everything tracked by treeMetaOnly. -/
theorem modifyLimitAt_avl_treeMetaOnly {b b' : OrderBook} {i : Nat} {f : Limit → Limit}
    (h : modifyLimitAt b i f = some b')
    (hf : ∀ l, limStats (f l) = limStats l) : treeMetaOnly b b' := by
  obtain ⟨l, hl, hb⟩ := modifyLimitAt_some h
  subst hb
  refine ⟨rfl, rfl, rfl, rfl, rfl, rfl, rfl, rfl, rfl, rfl, fun k => ?_⟩
  have hlt : i < b.limits.length := slotGet_lt hl
  by_cases hk : i = k
  · subst hk
    rw [slotGet_setAt, if_pos ⟨rfl, hlt⟩]
    rw [hl]
    show some (limStats (f l)) = some (limStats l)
    rw [hf l]
  · rw [slotGet_setAt, if_neg (by rintro ⟨h1, _⟩; exact hk h1)]

/-- insert_into_tree rewires tree metadata only: the maps, the roots,
the order arena and every limit's statistics are untouched. -/
theorem insert_into_tree_treeMetaOnly :
    ∀ (fuel : Nat) (b : OrderBook) (root : Option Nat) (li r : Nat) (b' : OrderBook),
      insert_into_tree b root li fuel = some (r, b') → treeMetaOnly b b' := by
  intro fuel
  induction fuel with
  | zero =>
    intro b root li r b' h
    simp [insert_into_tree] at h
  | succ fuel ih =>
    intro b root li r b' h
    unfold insert_into_tree at h
    split at h
    · injection h with h
      injection h with h1 h2
      subst h2
      exact treeMetaOnly_refl b
    · split at h
      · split at h
        · split at h
          · cases h
          · split at h
            · cases h
            · split at h
              · cases h
              · rename_i x2 new_left b1 heq1 x1 b2 heq2 x0 b3 heq3
                injection h with h
                injection h with h1 h2
                subst h2
                exact treeMetaOnly_trans (treeMetaOnly_trans (ih _ _ _ _ _ heq1)
                  (modifyLimitAt_avl_treeMetaOnly heq2 (fun l => rfl)))
                  (modifyLimitAt_avl_treeMetaOnly heq3 (fun l => rfl))
        · split at h
          · split at h
            · cases h
            · split at h
              · cases h
              · split at h
                · cases h
                · rename_i x2 new_right b1 heq1 x1 b2 heq2 x0 b3 heq3
                  injection h with h
                  injection h with h1 h2
                  subst h2
                  exact treeMetaOnly_trans (treeMetaOnly_trans (ih _ _ _ _ _ heq1)
                    (modifyLimitAt_avl_treeMetaOnly heq2 (fun l => rfl)))
                    (modifyLimitAt_avl_treeMetaOnly heq3 (fun l => rfl))
          · injection h with h
            injection h with h1 h2
            subst h2
            exact treeMetaOnly_refl b
      · cases h

end OrderBook

theorem slotGet_of_ge {α : Type} {L : List (Option α)} {i : Nat} (h : L.length ≤ i) :
    slotGet L i = none := by
  unfold slotGet
  rw [List.get?_eq_none.mpr h]

namespace OrderBook

theorem allocate_order_index_fields (b : OrderBook) :
    ((allocate_order_index b).2.limits = b.limits) ∧
    ((allocate_order_index b).2.free_limit_indices = b.free_limit_indices) ∧
    ((allocate_order_index b).2.price_to_limit_index = b.price_to_limit_index) ∧
    ((allocate_order_index b).2.order_id_to_index = b.order_id_to_index) ∧
    ((allocate_order_index b).2.buy_tree_root = b.buy_tree_root) ∧
    ((allocate_order_index b).2.sell_tree_root = b.sell_tree_root) ∧
    ((allocate_order_index b).2.best_bid_index = b.best_bid_index) ∧
    ((allocate_order_index b).2.best_ask_index = b.best_ask_index) ∧
    ((allocate_order_index b).2.current_time = b.current_time) := by
  unfold allocate_order_index
  split <;> exact ⟨rfl, rfl, rfl, rfl, rfl, rfl, rfl, rfl, rfl⟩

theorem allocate_limit_index_fields (b : OrderBook) :
    ((allocate_limit_index b).2.orders = b.orders) ∧
    ((allocate_limit_index b).2.free_order_indices = b.free_order_indices) ∧
    ((allocate_limit_index b).2.price_to_limit_index = b.price_to_limit_index) ∧
    ((allocate_limit_index b).2.order_id_to_index = b.order_id_to_index) ∧
    ((allocate_limit_index b).2.current_time = b.current_time) := by
  unfold allocate_limit_index
  split <;> exact ⟨rfl, rfl, rfl, rfl, rfl⟩

theorem allocate_limit_index_slots (b : OrderBook) (k : Nat) :
    slotGet (allocate_limit_index b).2.limits k = slotGet b.limits k := by
  unfold allocate_limit_index
  split
  · rfl
  · exact slotGet_append_none b.limits k

/-- update_best_prices touches only the two cached best indices. -/
theorem update_best_prices_fields {b b2 : OrderBook} {li : Nat} {s : Side}
    (h : update_best_prices b li s = some b2) :
    b2.limits = b.limits ∧ b2.price_to_limit_index = b.price_to_limit_index ∧
    b2.orders = b.orders ∧ b2.order_id_to_index = b.order_id_to_index := by
  unfold update_best_prices at h
  (repeat' split at h) <;>
    first
    | (injection h with h; subst h; split <;> exact ⟨rfl, rfl, rfl, rfl⟩)
    | (injection h with h; subst h; exact ⟨rfl, rfl, rfl, rfl⟩)
    | injection h

/-- On success add_order_to_limit leaves the price map alone and adds
the quantity to the target level's size. -/
theorem add_order_to_limit_spec (b : OrderBook) (oi j q : Nat) (u : Unit) (bf : OrderBook)
    (h : add_order_to_limit b oi j q = (Except.ok u, bf)) :
    bf.price_to_limit_index = b.price_to_limit_index ∧
    bf.order_id_to_index = b.order_id_to_index ∧
    ∃ l l2, slotGet b.limits j = some l ∧ slotGet bf.limits j = some l2 ∧
      l2.size = l.size + q := by
  unfold add_order_to_limit at h
  dsimp only at h
  split at h
  · exact absurd (congrArg Prod.fst h) (by simp)
  · split at h
    · exact absurd (congrArg Prod.fst h) (by simp)
    · split at h
      · split at h
        · exact absurd (congrArg Prod.fst h) (by simp)
        · split at h
          · exact absurd (congrArg Prod.fst h) (by simp)
          · split at h
            · exact absurd (congrArg Prod.fst h) (by simp)
            · split at h
              · exact absurd (congrArg Prod.fst h) (by simp)
              · rename_i x6 l0 hslot0 x5 bb1 hm1 x4 t htail x3 bb2 hm2 x2 bb3 hm3 x1 bb4 hm4 x0 bb5 hm5
                obtain ⟨oz1, _, he1⟩ := modifyOrderAt_some hm1
                subst he1
                obtain ⟨oz2, _, he2⟩ := modifyOrderAt_some hm2
                subst he2
                obtain ⟨oz3, _, he3⟩ := modifyOrderAt_some hm3
                subst he3
                obtain ⟨lz4, hl4, he4⟩ := modifyLimitAt_some hm4
                subst he4
                obtain ⟨lz5, hl5, he5⟩ := modifyLimitAt_some hm5
                subst he5
                injection h with h1 h2
                subst h2
                have hlt : j < b.limits.length := slotGet_lt hslot0
                have hz4 : lz4 = l0 := by
                  apply Option.some.inj
                  rw [← show slotGet b.limits j = some lz4 from hl4]
                  exact hslot0
                subst lz4
                have h5c : slotGet (setAt b.limits j
                    (some { l0 with tail_order_index := some oi })) j = some lz5 := hl5
                have hz5 : lz5 = { l0 with tail_order_index := some oi } := by
                  apply Option.some.inj
                  rw [← h5c, slotGet_setAt, if_pos ⟨rfl, hlt⟩]
                subst lz5
                refine ⟨rfl, rfl, l0, ({ l0 with tail_order_index := some oi }).add_order_stats q,
                  hslot0, ?_, rfl⟩
                rw [slotGet_setAt, if_pos ⟨rfl, by rw [setAt_length]; exact hlt⟩]
      · split at h
        · exact absurd (congrArg Prod.fst h) (by simp)
        · split at h
          · exact absurd (congrArg Prod.fst h) (by simp)
          · rename_i x6 l0 hslot0 x5 bb1 hm1 x4 htail x1 bb2 hm2 x0 bb3 hm3
            obtain ⟨oz1, _, he1⟩ := modifyOrderAt_some hm1
            subst he1
            obtain ⟨lz2, hl2, he2⟩ := modifyLimitAt_some hm2
            subst he2
            obtain ⟨lz3, hl3, he3⟩ := modifyLimitAt_some hm3
            subst he3
            injection h with h1 h2
            subst h2
            have hlt : j < b.limits.length := slotGet_lt hslot0
            have hz2 : lz2 = l0 := by
              apply Option.some.inj
              rw [← show slotGet b.limits j = some lz2 from hl2]
              exact hslot0
            subst lz2
            have h3c : slotGet (setAt b.limits j
                (some { l0 with head_order_index := some oi, tail_order_index := some oi })) j =
                some lz3 := hl3
            have hz3 : lz3 = { l0 with head_order_index := some oi, tail_order_index := some oi } := by
              apply Option.some.inj
              rw [← h3c, slotGet_setAt, if_pos ⟨rfl, hlt⟩]
            subst lz3
            refine ⟨rfl, rfl, l0,
              ({ l0 with head_order_index := some oi, tail_order_index := some oi }).add_order_stats q,
              hslot0, ?_, rfl⟩
            rw [slotGet_setAt, if_pos ⟨rfl, by rw [setAt_length]; exact hlt⟩]

end OrderBook

namespace OrderBook

/-- On success get_or_create_limit either returns the existing level
untouched, or registers a fresh empty level under the price (a free
slot out of arena range surfaces as an unoccupied slot, which the
subsequent add_order_to_limit turns into a panic). -/
theorem get_or_create_limit_spec (b : OrderBook) (p : Nat) (s : Side) (j : Nat) (b' : OrderBook)
    (h : get_or_create_limit b p s = (Except.ok j, b')) :
    (lookupA b.price_to_limit_index p = some j ∧ b' = b) ∨
    (lookupA b.price_to_limit_index p = none ∧
     lookupA b'.price_to_limit_index p = some j ∧
     b'.orders = b.orders ∧
     b'.order_id_to_index = b.order_id_to_index ∧
     ((slotGet b'.limits j).map limStats = some (limStats (Limit.newLimit p s)) ∨
      slotGet b'.limits j = none)) := by
  unfold get_or_create_limit at h
  split at h
  · rename_i j0 hlook
    injection h with h1 h2
    injection h1 with h1
    subst h1
    subst h2
    exact Or.inl ⟨hlook, rfl⟩
  · rename_i hlook
    dsimp only at h
    right
    split at h
    all_goals
      split at h
      · exact absurd (congrArg Prod.fst h) (by simp)
      · rename_i x0 new_root b4 heq
        injection h with h1 h2
        injection h1 with h1
        subst h1
        subst h2
        have hpres := insert_into_tree_treeMetaOnly _ _ _ _ _ _ heq
        obtain ⟨g1, g2, g3, g4, g5, g6, g7, g8, g9, g10, g11⟩ := hpres
        have halloc := allocate_limit_index_fields b
        refine ⟨hlook, ?_, ?_, ?_, ?_⟩
        · try dsimp only
          rw [g5]
          try dsimp only
          rw [lookupA_insertA]
          simp
        · try dsimp only
          rw [g1]
          try dsimp only
          exact halloc.1
        · try dsimp only
          rw [g3]
          try dsimp only
          exact halloc.2.2.2.1
        · try dsimp only
          have hslots := g11 (allocate_limit_index b).1
          by_cases hrange : (allocate_limit_index b).1 < (allocate_limit_index b).2.limits.length
          · left
            rw [hslots]
            try dsimp only
            rw [slotGet_setAt, if_pos ⟨rfl, hrange⟩]
            rfl
          · right
            have hnone : (slotGet b4.limits (allocate_limit_index b).1).map limStats = none := by
              rw [hslots]
              try dsimp only
              rw [slotGet_setAt, if_neg (by rintro ⟨_, hc⟩; exact hrange hc)]
              rw [slotGet_of_ge (by omega)]
              rfl
            cases hx : slotGet b4.limits (allocate_limit_index b).1 with
            | none => rfl
            | some lx =>
              rw [hx] at hnone
              simp at hnone

end OrderBook

namespace OrderBook

/-- A successful add_order_to_book adds the order's remaining quantity
to the volume resting at its limit price. -/
theorem add_order_to_book_ok_volume (b : OrderBook) (o : Order) (u : Unit) (b' : OrderBook)
    (h : add_order_to_book b o = (Except.ok u, b')) :
    b'.volume_at_price o.price = some (vol0 b o.price + o.remaining_quantity) := by
  have halloc := allocate_order_index_fields b
  unfold add_order_to_book at h
  dsimp only at h
  split at h
  · exact absurd (congrArg Prod.fst h) (by simp)
  · rename_i x0 li b3 heq
    split at h
    · exact absurd (congrArg Prod.fst h) (by simp)
    · rename_i x1 u2 b4 heq2
      split at h
      · exact absurd (congrArg Prod.fst h) (by simp)
      · rename_i x2 b5 heq3
        injection h with h1 h2
        subst h2
        obtain ⟨hm4, hid4, l, l2, hl3, hl4, hsz⟩ := add_order_to_limit_spec _ _ _ _ _ _ heq2
        obtain ⟨hub1, hub2, hub3, hub4⟩ := update_best_prices_fields heq3
        rcases get_or_create_limit_spec _ _ _ _ _ heq with ⟨hlookA, hb3⟩ |
          ⟨hlookB, hlookB2, hordB, hidB, hslotB⟩
        · -- the level already existed
          have hb3map : b3.price_to_limit_index = b.price_to_limit_index := by
            rw [hb3]
            try dsimp only
            exact halloc.2.2.1
          have hb3lim : b3.limits = b.limits := by
            rw [hb3]
            try dsimp only
            exact halloc.1
          have hlook_b : lookupA b.price_to_limit_index o.price = some li := by
            rw [← hb3map, hb3]
            exact hlookA
          have hl_b : slotGet b.limits li = some l := by
            rw [← hb3lim]
            exact hl3
          unfold volume_at_price vol0 volume_at_price
          rw [hub2, hm4, hb3map, hlook_b]
          simp only [Option.some_bind]
          rw [hub1, hl4, hl_b]
          simp only [Option.map_some', Option.getD_some]
          rw [hsz]
        · -- a fresh level was created
          have hlook_b : lookupA b.price_to_limit_index o.price = none := by
            have := hlookB
            try dsimp only at this
            rw [halloc.2.2.1] at this
            exact this
          rcases hslotB with hstats | hnone
          · have hsz0 : l.size = 0 := by
              rw [hl3] at hstats
              simp only [Option.map_some', Option.some.injEq] at hstats
              exact congrArg (fun t => t.2.1) hstats
            unfold volume_at_price vol0 volume_at_price
            rw [hub2, hm4, hlookB2]
            simp only [Option.some_bind]
            rw [hub1, hl4, hlook_b]
            simp only [Option.map_some', Option.none_bind, Option.getD_none]
            rw [hsz, hsz0]
            simp
          · rw [hl3] at hnone
            cases hnone

end OrderBook

namespace OrderBook

/-- A successful public add_order adds the order's remaining quantity
to the volume resting at its limit price. -/
theorem add_order_ok_volume (b : OrderBook) (o : Order) (u : Unit) (b' : OrderBook)
    (h : b.add_order o = (Except.ok u, b')) :
    b'.volume_at_price o.price = some (vol0 b o.price + o.remaining_quantity) := by
  unfold add_order at h
  split_ifs at h with h1 h2 h3
  · exact absurd (congrArg Prod.fst h) (by simp)
  · exact absurd (congrArg Prod.fst h) (by simp)
  · exact absurd (congrArg Prod.fst h) (by simp)
  · exact add_order_to_book_ok_volume b { o with event_time := b.current_time } u b' h

end OrderBook

/-- C2: whenever the engine's process completes normally, the sum of
the emitted trades' quantities plus the incoming order's residual
equals its original quantity, a positive residual is booked in full at
the order's limit price, and a zero residual books nothing.  (In this
code every normal completion carries an empty trade list: a marketable
order never completes normally, see C1.) -/
theorem c2_engine_conservation (b : OrderBook) (o : Order) (trades : List Trade)
    (b' : OrderBook)
    (hfresh : o.remaining_quantity = o.quantity)
    (h : MatchingEngine.process_order b o = (Except.ok trades, b')) :
    tradesQty trades + MatchingEngine.match_residual b o = o.quantity ∧
    (0 < MatchingEngine.match_residual b o →
      b'.volume_at_price o.price = some (vol0 b o.price + MatchingEngine.match_residual b o)) ∧
    (MatchingEngine.match_residual b o = 0 → b' = b ∧ trades = []) := by
  unfold MatchingEngine.process_order at h
  unfold MatchingEngine.match_residual
  cases hside : o.side with
  | buy =>
    dsimp only at h
    rw [hside] at h
    rw [if_pos rfl] at h ⊢
    cases hm : MatchingEngine.match_buy_order b o with
    | mk mfst msnd =>
      rw [hm] at h
      cases mfst with
      | error e =>
        try dsimp only at h
        exact absurd (congrArg Prod.fst h) (by simp)
      | ok ts =>
        obtain ⟨hts, hord⟩ := MatchingEngine.match_buy_go_ok b MatchingEngine.MAX_ITERATIONS o [] ts msnd hm
        subst ts
        subst msnd
        try dsimp only at h ⊢
        rw [hfresh]
        by_cases hqz : o.quantity > 0
        · rw [if_pos hqz] at h
          cases hadd : b.add_order o with
          | mk afst asnd =>
            rw [hadd] at h
            cases afst with
            | error e =>
              dsimp only at h
              exact absurd (congrArg Prod.fst h) (by simp)
            | ok u =>
              dsimp only at h
              injection h with h1 h2
              injection h1 with h1
              subst h1
              subst h2
              refine ⟨by simp [tradesQty], fun _ => ?_, fun h0 => absurd h0 (by omega)⟩
              have := OrderBook.add_order_ok_volume b o u asnd hadd
              rw [hfresh] at this
              exact this
        · rw [if_neg hqz] at h
          injection h with h1 h2
          injection h1 with h1
          subst h1
          subst h2
          have hq0 : o.quantity = 0 := by omega
          refine ⟨by simp [tradesQty, hq0], fun hc => absurd hc (by omega), fun _ => ⟨rfl, rfl⟩⟩
  | sell =>
    dsimp only at h
    rw [hside] at h
    rw [if_neg (by simp)] at h ⊢
    cases hm : MatchingEngine.match_sell_order b o with
    | mk mfst msnd =>
      rw [hm] at h
      cases mfst with
      | error e =>
        try dsimp only at h
        exact absurd (congrArg Prod.fst h) (by simp)
      | ok ts =>
        obtain ⟨hts, hord⟩ := MatchingEngine.match_sell_go_ok b MatchingEngine.MAX_ITERATIONS o [] ts msnd hm
        subst ts
        subst msnd
        try dsimp only at h ⊢
        rw [hfresh]
        by_cases hqz : o.quantity > 0
        · rw [if_pos hqz] at h
          cases hadd : b.add_order o with
          | mk afst asnd =>
            rw [hadd] at h
            cases afst with
            | error e =>
              dsimp only at h
              exact absurd (congrArg Prod.fst h) (by simp)
            | ok u =>
              dsimp only at h
              injection h with h1 h2
              injection h1 with h1
              subst h1
              subst h2
              refine ⟨by simp [tradesQty], fun _ => ?_, fun h0 => absurd h0 (by omega)⟩
              have := OrderBook.add_order_ok_volume b o u asnd hadd
              rw [hfresh] at this
              exact this
        · rw [if_neg hqz] at h
          injection h with h1 h2
          injection h1 with h1
          subst h1
          subst h2
          have hq0 : o.quantity = 0 := by omega
          refine ⟨by simp [tradesQty, hq0], fun hc => absurd hc (by omega), fun _ => ⟨rfl, rfl⟩⟩

/-- Witness for C2: a non-marketable buy on the empty book rests in
full; no trades are emitted and the conservation equation holds. -/
theorem c2_engine_conservation_witness :
    (Order.newOrder 1 Side.buy 5 100 0 1).remaining_quantity =
      (Order.newOrder 1 Side.buy 5 100 0 1).quantity ∧
    (tradesQty [] + MatchingEngine.match_residual OrderBook.newBook (Order.newOrder 1 Side.buy 5 100 0 1) =
      (Order.newOrder 1 Side.buy 5 100 0 1).quantity ∧
    (0 < MatchingEngine.match_residual OrderBook.newBook (Order.newOrder 1 Side.buy 5 100 0 1) →
      (MatchingEngine.process_order OrderBook.newBook (Order.newOrder 1 Side.buy 5 100 0 1)).2.volume_at_price
        (Order.newOrder 1 Side.buy 5 100 0 1).price =
        some (vol0 OrderBook.newBook (Order.newOrder 1 Side.buy 5 100 0 1).price +
          MatchingEngine.match_residual OrderBook.newBook (Order.newOrder 1 Side.buy 5 100 0 1))) ∧
    (MatchingEngine.match_residual OrderBook.newBook (Order.newOrder 1 Side.buy 5 100 0 1) = 0 →
      (MatchingEngine.process_order OrderBook.newBook (Order.newOrder 1 Side.buy 5 100 0 1)).2 =
        OrderBook.newBook ∧ ([] : List Trade) = [])) := by
  refine ⟨rfl, ?_⟩
  exact c2_engine_conservation OrderBook.newBook (Order.newOrder 1 Side.buy 5 100 0 1) []
    (MatchingEngine.process_order OrderBook.newBook (Order.newOrder 1 Side.buy 5 100 0 1)).2
    rfl rfl
